import Mathlib

/-!
Shallow embedding of the event→saga coordination engine of the simulation
orchestration server, and theorems checking the specification's claims
against it.

The definitions are translated from the Go sources:
  * `server/internal/models/models.go`   — wire data model
  * `server/internal/scenario/scenario.go` — rule matching (`ProcessEvent`)
  * `server/internal/registry/registry.go` — simulation registry
  * `server/internal/queue` (src/unnamed/part_006) — bounded event queue
  * `server/internal/saga/saga.go`       — saga engine
  * `server/internal/websocket` (src/unnamed/part_007) — connection handler

Opaque JSON parameter objects are modelled as association lists of strings;
send-handles as numeric connection identifiers; timestamps as natural-number
ticks supplied by the caller.  Network writes to a registered simulation are
modelled as succeeding (the send failure branch of `WriteJSON` is external
nondeterminism outside the state machine).
-/

namespace Orchestration

/-- Opaque JSON object (`map[string]interface{}` in the source), passed
through unchanged everywhere; modelled as a string association list. -/
abbrev Params := List (String × String)

/-- `models.Message`: the single wire envelope shape.  Fields absent from a
given message kind are the zero values, exactly as in Go. -/
structure Msg where
  type : String
  id : String
  name : String
  eventType : String
  command : String
  params : Params
  status : String
  sagaID : String
  stepID : Option Nat
  deriving Repr, DecidableEq

/-- The all-zero-values message, as produced by a Go literal that sets only
some fields. -/
def Msg.zero : Msg :=
  { type := "", id := "", name := "", eventType := "", command := ""
    params := [], status := "", sagaID := "", stepID := none }

/-- An outbound frame: a message written to one target's send-handle. -/
structure Envelope where
  target : String
  msg : Msg
  deriving Repr, DecidableEq

/-- `models.Action`: one `then`-entry of a rule.  Absent optional fields are
the empty string / empty map, as in Go. -/
structure Action where
  sendTo : String
  command : String
  params : Params
  compensateCommand : String
  compensateParams : Params
  deriving Repr, DecidableEq

/-- `models.WhenCondition`. -/
structure WhenCondition where
  eventType : String
  from_ : String
  deriving Repr, DecidableEq

/-- `models.Rule`. -/
structure Rule where
  when : WhenCondition
  then_ : List Action
  deriving Repr, DecidableEq

/-- `models.Scenario`. -/
structure Scenario where
  name : String
  rules : List Rule
  deriving Repr, DecidableEq

/-- `models.Event`. -/
structure Event where
  type : String
  eventType : String
  source : String
  deriving Repr, DecidableEq

/-! ## Rule matcher (`scenario.go`, `ProcessEvent`) -/

/-- The loop body of `ScenarioManager.ProcessEvent` (scenario.go lines
57–71): iterate the rules in declared order, skip on event-type mismatch,
skip on source mismatch when `when.from` is non-empty, otherwise append the
rule's `then`-list. -/
def processRules (event : Event) : List Rule → List Action
  | [] => []
  | r :: rest =>
    if r.when.eventType ≠ event.eventType then processRules event rest
    else if r.when.from_ ≠ "" ∧ r.when.from_ ≠ event.source then
      processRules event rest
    else r.then_ ++ processRules event rest

/-- `ScenarioManager.ProcessEvent`: `sm.scenario` is `none` before any
scenario is loaded, in which case the result is `nil`. -/
def processEvent (scenario : Option Scenario) (event : Event) : List Action :=
  match scenario with
  | none => []
  | some sc => processRules event sc.rules

/-- Stated from the spec's words (§4.2): a rule matches an event when
`when.event_type` equals the event's and `when.from`, if present, equals
the event's source. -/
def ruleMatches (event : Event) (r : Rule) : Bool :=
  r.when.eventType == event.eventType &&
    (r.when.from_ == "" || r.when.from_ == event.source)

/-- Stated from the spec's words (§4.2): the concatenation, in declared rule
order, of the `then`-lists of every matching rule. -/
def matchActionsSpec (rules : List Rule) (event : Event) : List Action :=
  ((rules.filter (ruleMatches event)).map Rule.then_).flatten

/-! ## Event queue (`queue` package, src/unnamed/part_006) -/

/-- `queue.EventQueue`: a buffered channel of capacity `capacity` plus a
`closed` flag.  The buffer contents are the queued `(sourceID, message)`
pairs in FIFO order. -/
structure EventQueue where
  capacity : Nat
  closed : Bool
  buffer : List (String × Msg)
  deriving Repr, DecidableEq

/-- `queue.NewEventQueue`. -/
def newEventQueue (bufferSize : Nat) : EventQueue :=
  { capacity := bufferSize, closed := false, buffer := [] }

/-- `EventQueue.Enqueue` (part_006 lines 187–210): return `false` if the
queue is closed; otherwise a non-blocking channel send that succeeds exactly
when the buffer is below capacity and fails (select default) otherwise. -/
def EventQueue.enqueue (q : EventQueue) (sourceID : String) (msg : Msg) :
    EventQueue × Bool :=
  if q.closed then (q, false)
  else if q.buffer.length < q.capacity then
    ({ q with buffer := q.buffer ++ [(sourceID, msg)] }, true)
  else (q, false)

/-- `EventQueue.Close` (part_006 lines 226–235). -/
def EventQueue.close (q : EventQueue) : EventQueue :=
  { q with closed := true }

/-- The event queue constructed by the server entry point
(`cmd/server/main.go` line 57: `queue.NewEventQueue(1000)`). -/
def serverEventQueue : EventQueue := newEventQueue 1000

/-- The `error/queue_full` envelope the connection handler writes back to
the producing client (part_007 lines 91–95). -/
def queueFullEnvelope (simID : String) : Envelope :=
  { target := simID, msg := { Msg.zero with type := "error", status := "queue_full" } }

/-- The `"event"` case of the connection handler's read loop (part_007 lines
86–96): enqueue; on rejection send exactly one `error/queue_full` envelope to
the producer.  The returned flag is whether the read loop continues (the
connection is never dropped on a queue rejection). -/
def handleEventMessage (q : EventQueue) (simID : String) (msg : Msg) :
    EventQueue × List Envelope × Bool :=
  let (q', ok) := q.enqueue simID msg
  if ok then (q', [], true)
  else (q', [queueFullEnvelope simID], true)

/-! ## Registry (`registry.go`) -/

/-- `models.Simulation`: id, display name and an opaque send-handle,
modelled as a numeric connection identifier. -/
structure Simulation where
  id : String
  name : String
  conn : Nat
  deriving Repr, DecidableEq

/-- `Registry`: the `id → *Simulation` map, as an association list with at
most one entry per id. -/
abbrev Registry := List Simulation

/-- `Registry.Get` (registry.go lines 39–45). -/
def Registry.get (r : Registry) (id : String) : Option Simulation :=
  r.find? (fun s => s.id == id)

/-- `Registry.Register` (registry.go lines 24–36): build the record and
assign it into the map, replacing any previous entry for `id`.  Nothing else
happens: the previous entry's connection is not closed and no saga hook is
invoked. -/
def Registry.register (r : Registry) (id name : String) (conn : Nat) : Registry :=
  { id := id, name := name, conn := conn } :: r.filter (fun s => s.id ≠ id)

/-- `Registry.Unregister` (registry.go lines 48–53): `delete(r.simulations, id)`. -/
def Registry.unregister (r : Registry) (id : String) : Registry :=
  r.filter (fun s => s.id ≠ id)

/-! ## Saga engine (`saga.go`) -/

/-- `SagaStatus` (saga.go lines 46–52). -/
inductive SagaStatus
  | Pending | InProgress | Completed | Failed | Compensating
  deriving Repr, DecidableEq

/-- `StepStatus` (saga.go lines 57–62). -/
inductive StepStatus
  | Pending | InFlight | Completed | Failed
  deriving Repr, DecidableEq

/-- `SagaStep` (saga.go lines 65–75); timestamps are tick counts. -/
structure SagaStep where
  stepID : Nat
  targetSimulation : String
  command : String
  compensateCommand : String
  params : Params
  compensateParams : Params
  status : StepStatus
  createdAt : Nat
  completedAt : Option Nat
  deriving Repr, DecidableEq

/-- `Saga` (saga.go lines 79–87).  The `mu` mutex is not part of the logical
state; its acquire/release discipline is modelled separately by the lock
traces below. -/
structure Saga where
  sagaID : String
  currentStep : Nat
  status : SagaStatus
  steps : List SagaStep
  lockedSims : List String
  deriving Repr, DecidableEq

/-- A saga is non-terminal when it is neither Completed nor Failed. -/
def Saga.nonTerminal (g : Saga) : Prop :=
  g.status ≠ SagaStatus.Completed ∧ g.status ≠ SagaStatus.Failed

instance (g : Saga) : Decidable g.nonTerminal := by
  unfold Saga.nonTerminal; infer_instance

/-- The mutable state of `SagaManager` (saga.go lines 92–101):
`sagas` is the `sagaID → *Saga` map; `heldLocks` is the set of simulation
ids whose per-simulation mutex in `simulationLocks` is currently locked;
`activeSagas` is the `simID → []sagaID` conflict-tracking map. -/
structure EngineState where
  sagas : List (String × Saga)
  heldLocks : List String
  activeSagas : List (String × List String)
  deriving Repr, DecidableEq

/-- `NewSagaManager` (saga.go lines 104–111). -/
def emptyEngine : EngineState := { sagas := [], heldLocks := [], activeSagas := [] }

/-- Lookup in the `sagaID → Saga` map. -/
def lookupSaga (l : List (String × Saga)) (sid : String) : Option Saga :=
  (l.find? (fun p => p.1 == sid)).map Prod.snd

/-- Map assignment `sm.sagas[sagaID] = saga` for a key already present:
replace every binding of that key (there is at most one). -/
def setSaga (l : List (String × Saga)) (sid : String) (g : Saga) :
    List (String × Saga) :=
  l.map (fun p => if p.1 = sid then (sid, g) else p)

/-- Lookup in the `simID → []sagaID` tracking map. -/
def lookupActive (l : List (String × List String)) (simID : String) :
    Option (List String) :=
  (l.find? (fun p => p.1 == simID)).map Prod.snd

/-- Map assignment into the tracking map (insert or replace). -/
def setActive (l : List (String × List String)) (simID : String)
    (ids : List String) : List (String × List String) :=
  if (l.find? (fun p => p.1 == simID)).isSome then
    l.map (fun p => if p.1 = simID then (simID, ids) else p)
  else l ++ [(simID, ids)]

/-- `delete(sm.activeSagas, simID)`. -/
def removeActive (l : List (String × List String)) (simID : String) :
    List (String × List String) :=
  l.filter (fun p => p.1 ≠ simID)

/-- The saga ids currently tracked against a simulation id (empty when the
key is absent, as for a Go map read). -/
def activeIds (es : EngineState) (simID : String) : List String :=
  (lookupActive es.activeSagas simID).getD []

/-- `trackActiveSimulation` (saga.go lines 146–155): append the saga id to
the simulation's tracking list, creating the list if absent. -/
def trackActive (es : EngineState) (simID sagaID : String) : EngineState :=
  { es with activeSagas :=
      setActive es.activeSagas simID (activeIds es simID ++ [sagaID]) }

/-- `untrackActiveSimulation` (saga.go lines 158–176): remove the first
occurrence of the saga id from the simulation's list; delete the key when
the list becomes empty. -/
def untrackActive (es : EngineState) (simID sagaID : String) : EngineState :=
  match lookupActive es.activeSagas simID with
  | none => es
  | some ids =>
    let ids' := ids.erase sagaID
    if ids'.isEmpty then { es with activeSagas := removeActive es.activeSagas simID }
    else { es with activeSagas := setActive es.activeSagas simID ids' }

/-- `CheckConflict` (saga.go lines 180–202): the tracked saga ids against
`simID` whose saga is currently `InProgress` or `Pending`, and whether any
exist. -/
def checkConflict (es : EngineState) (simID : String) : List String × Bool :=
  match lookupActive es.activeSagas simID with
  | none => ([], false)
  | some ids =>
    if ids.isEmpty then ([], false)
    else
      let conflicting := ids.filter (fun sid =>
        match lookupSaga es.sagas sid with
        | some g => g.status = SagaStatus.InProgress ∨ g.status = SagaStatus.Pending
        | none => false)
      (conflicting, !conflicting.isEmpty)

/-- First-occurrence deduplication, used to model iteration over the keys of
a Go map built by insertion (`conflictingSims`, `sims` in
`cleanupSimulationLocks`). -/
def dedupKeys : List String → List String
  | [] => []
  | x :: xs => x :: (dedupKeys xs).filter (fun y => y ≠ x)

/-- The conflict map built by `CreateSaga` (saga.go lines 227–232):
for each distinct action target with a conflict, the conflicting saga ids. -/
def conflictList (es : EngineState) (actions : List Action) :
    List (String × List String) :=
  (dedupKeys (actions.map Action.sendTo)).filterMap (fun t =>
    let c := checkConflict es t
    if c.2 then some (t, c.1) else none)

/-- `cleanupSimulationLocks` (saga.go lines 205–216): untrack the saga from
every distinct simulation targeted by its steps. -/
def cleanupSimulationLocks (es : EngineState) (saga : Saga) : EngineState :=
  (dedupKeys (saga.steps.map SagaStep.targetSimulation)).foldl
    (fun e t => untrackActive e t saga.sagaID) es

/-- `releaseAllLocksForSaga` (saga.go lines 537–547): unlock the
per-simulation mutex of every simulation in the saga's `lockedSims` list. -/
def releaseAllLocksForSaga (es : EngineState) (saga : Saga) : EngineState :=
  { es with heldLocks := saga.lockedSims.foldl (fun h s => h.erase s) es.heldLocks }

/-- Outcome of the lock-acquisition loop of `CreateSaga` (saga.go lines
243–257). -/
inductive AcqResult
  | ok (held acquired lockedSims : List String)
  | failed (simID : String) (heldAfterRelease : List String)
  deriving Repr, DecidableEq

/-- The lock-acquisition loop of `CreateSaga`: one non-blocking
`acquireSimulationLock` (saga.go lines 115–129, a `TryLock`) per action
occurrence.  `acquired` are the keys of the `locks` map; on a failed
acquire, every lock in that map is released (`releaseSimulationLock`)
before the error is reported. -/
def tryAcquireAll (held acquired lockedSims : List String) :
    List Action → AcqResult
  | [] => AcqResult.ok held acquired lockedSims
  | a :: rest =>
    if a.sendTo ∈ held then
      AcqResult.failed a.sendTo (acquired.foldl (fun h s => h.erase s) held)
    else
      tryAcquireAll (a.sendTo :: held) (acquired ++ [a.sendTo])
        (lockedSims ++ [a.sendTo]) rest

/-- The step records materialized by `CreateSaga` (saga.go lines 263–275). -/
def buildSteps (actions : List Action) (now : Nat) : List SagaStep :=
  actions.enum.map (fun p =>
    { stepID := p.1
      targetSimulation := p.2.sendTo
      command := p.2.command
      compensateCommand := p.2.compensateCommand
      params := p.2.params
      compensateParams := p.2.compensateParams
      status := StepStatus.Pending
      createdAt := now
      completedAt := none })

/-- The command envelope written by `dispatchStep` (saga.go lines 336–346). -/
def commandEnvelope (step : SagaStep) (sagaID : String) (stepIndex : Nat) :
    Envelope :=
  { target := step.targetSimulation
    msg := { Msg.zero with
      type := "command"
      command := step.command
      params := step.params
      sagaID := sagaID
      stepID := some stepIndex } }

/-- `dispatchStep` (saga.go lines 321–360): bounds-check the index, look the
target up in the registry (missing target is the dispatch error, modelled as
`none`), write the command envelope, then mark the step InFlight and upgrade
a Pending saga to InProgress. -/
def dispatchStep (reg : Registry) (saga : Saga) (stepIndex : Nat) :
    Option (Saga × Envelope) :=
  match saga.steps[stepIndex]? with
  | none => none
  | some step =>
    match reg.get step.targetSimulation with
    | none => none
    | some _ =>
      some
        ({ saga with
            steps := saga.steps.set stepIndex { step with status := StepStatus.InFlight }
            status := if saga.status = SagaStatus.Pending then SagaStatus.InProgress
                      else saga.status },
         commandEnvelope step saga.sagaID stepIndex)

/-- One iteration of the compensation loop (saga.go lines 478–527): skip the
step unless it is Completed, has a non-empty compensation command, and its
target is still registered; otherwise send the compensation envelope and
mark the step Failed. -/
def compensateStep (reg : Registry) (saga : Saga) (i : Nat) :
    Saga × List Envelope :=
  match saga.steps[i]? with
  | none => (saga, [])
  | some step =>
    if step.status ≠ StepStatus.Completed then (saga, [])
    else if step.compensateCommand = "" then (saga, [])
    else
      match reg.get step.targetSimulation with
      | none => (saga, [])
      | some _ =>
        ({ saga with steps := saga.steps.set i { step with status := StepStatus.Failed } },
         [{ target := step.targetSimulation
            msg := { Msg.zero with
              type := "command"
              command := step.compensateCommand
              params := step.compensateParams
              sagaID := saga.sagaID
              stepID := some i } }])

/-- The compensation loop `for i := last; i >= 0; i--` on its non-negative
range: visit `i`, then `i-1`, …, then `0`. -/
def compensateDown (reg : Registry) : Saga → Nat → Saga × List Envelope
  | saga, 0 => compensateStep reg saga 0
  | saga, i + 1 =>
    let r₁ := compensateStep reg saga (i + 1)
    let r₂ := compensateDown reg r₁.1 i
    (r₂.1, r₁.2 ++ r₂.2)

/-- `triggerCompensation` (saga.go lines 470–534): set the saga
Compensating, run the loop from `lastStepToCompensate` (an `int`; a negative
start skips the loop entirely), then set the saga Failed. -/
def triggerCompensation (reg : Registry) (saga : Saga) (last : Int) :
    Saga × List Envelope :=
  let saga₀ := { saga with status := SagaStatus.Compensating }
  let r :=
    if last < 0 then (saga₀, [])
    else compensateDown reg saga₀ last.toNat
  ({ r.1 with status := SagaStatus.Failed }, r.2)

/-- Result of `CreateSaga`, separating the Go error values (saga.go lines
222–316): the empty-action error, the conflict error (carrying the
conflict map that the code computes and logs), the lock-acquisition error,
the dispatch error (which still stores and returns the Failed saga), and
success. -/
inductive CreateResult
  | ok (sagaID : String)
  | emptyActions
  | conflict (busy : List (String × List String))
  | lockFailed (simID : String)
  | dispatchFailed (sagaID : String)
  deriving Repr, DecidableEq

/-- `CreateSaga` (saga.go lines 221–317).  `sagaID` is the freshly generated
identifier (a nanosecond timestamp in Go; uniqueness is the contract) and
`now` the creation timestamp. -/
def createSaga (reg : Registry) (es : EngineState) (actions : List Action)
    (sagaID : String) (now : Nat) : EngineState × List Envelope × CreateResult :=
  if actions.isEmpty then (es, [], CreateResult.emptyActions)
  else
    let busy := conflictList es actions
    if !busy.isEmpty then (es, [], CreateResult.conflict busy)
    else
      match tryAcquireAll es.heldLocks [] [] actions with
      | AcqResult.failed simID held' =>
        ({ es with heldLocks := held' }, [], CreateResult.lockFailed simID)
      | AcqResult.ok held acquired lockedSims =>
        let saga : Saga :=
          { sagaID := sagaID, currentStep := 0, status := SagaStatus.Pending
            steps := buildSteps actions now, lockedSims := lockedSims }
        let es₁ : EngineState :=
          { es with heldLocks := held, sagas := (sagaID, saga) :: es.sagas }
        let es₂ := lockedSims.foldl (fun e t => trackActive e t sagaID) es₁
        match dispatchStep reg saga 0 with
        | some d =>
          ({ es₂ with sagas := setSaga es₂.sagas sagaID d.1 }, [d.2],
           CreateResult.ok sagaID)
        | none =>
          let es₃ : EngineState :=
            { es₂ with heldLocks := acquired.foldl (fun h s => h.erase s) es₂.heldLocks }
          let es₄ := cleanupSimulationLocks es₃ saga
          ({ es₄ with sagas := setSaga es₄.sagas sagaID { saga with status := SagaStatus.Failed } },
           [], CreateResult.dispatchFailed sagaID)

/-- Result of the acknowledgment handlers. -/
inductive AckResult
  | ok
  | sagaNotFound
  | invalidStep
  | dispatchError
  deriving Repr, DecidableEq

/-- `HandleStepCompletion` (saga.go lines 364–426): ignore an unknown saga
or an out-of-range step id; ignore an acknowledgment for a step that is not
InFlight; otherwise mark the step Completed (stamping the completion time)
and either finish the saga (last step: status Completed, untrack, release
all locks) or dispatch the next step, compensating from the acked step
downward when that dispatch fails (in which case the locks are not
released). -/
def handleStepCompletion (reg : Registry) (es : EngineState) (sagaID : String)
    (stepID : Nat) (now : Nat) : EngineState × List Envelope × AckResult :=
  match lookupSaga es.sagas sagaID with
  | none => (es, [], AckResult.sagaNotFound)
  | some saga =>
    match saga.steps[stepID]? with
    | none => (es, [], AckResult.invalidStep)
    | some step =>
      if step.status ≠ StepStatus.InFlight then (es, [], AckResult.ok)
      else
        let step' := { step with status := StepStatus.Completed, completedAt := some now }
        let saga₁ := { saga with steps := saga.steps.set stepID step' }
        if stepID = saga.steps.length - 1 then
          let saga₂ := { saga₁ with status := SagaStatus.Completed }
          let es₁ := { es with sagas := setSaga es.sagas sagaID saga₂ }
          let es₂ := cleanupSimulationLocks es₁ saga₂
          (releaseAllLocksForSaga es₂ saga₂, [], AckResult.ok)
        else
          let saga₂ := { saga₁ with currentStep := stepID + 1 }
          match dispatchStep reg saga₂ (stepID + 1) with
          | some d =>
            ({ es with sagas := setSaga es.sagas sagaID d.1 }, [d.2], AckResult.ok)
          | none =>
            let r := triggerCompensation reg saga₂ (stepID : Int)
            ({ es with sagas := setSaga es.sagas sagaID r.1 }, r.2,
             AckResult.dispatchError)

/-- `HandleStepFailure` (saga.go lines 430–466): ignore an unknown saga or
an out-of-range step id; otherwise — with no check of the step's or the
saga's current status — mark the step Failed and the saga Failed, compensate
from `stepID - 1` downward, untrack the saga and release all its locks. -/
def handleStepFailure (reg : Registry) (es : EngineState) (sagaID : String)
    (stepID : Nat) : EngineState × List Envelope × AckResult :=
  match lookupSaga es.sagas sagaID with
  | none => (es, [], AckResult.sagaNotFound)
  | some saga =>
    match saga.steps[stepID]? with
    | none => (es, [], AckResult.invalidStep)
    | some step =>
      let saga₁ :=
        { saga with
            steps := saga.steps.set stepID { step with status := StepStatus.Failed }
            status := SagaStatus.Failed }
      let r := triggerCompensation reg saga₁ ((stepID : Int) - 1)
      let es₁ := { es with sagas := setSaga es.sagas sagaID r.1 }
      let es₂ := cleanupSimulationLocks es₁ r.1
      (releaseAllLocksForSaga es₂ r.1, r.2, AckResult.ok)

/-! ## Whole-system state and the connection handler's registry actions -/

/-- The server state visible to the claims: the registry, the saga engine,
and the set of connection handles that have been closed by the server. -/
structure SystemState where
  registry : Registry
  engine : EngineState
  closedConns : List Nat
  deriving Repr, DecidableEq

/-- The initial server state (`cmd/server/main.go` lines 41–43). -/
def initState : SystemState :=
  { registry := [], engine := emptyEngine, closedConns := [] }

/-- The registration path of the connection handler (part_007 lines 56–74):
`reg.Register(simID, msg.Name, conn)` followed by the
`{type:"registered", status:"ok"}` confirmation to the new connection.  No
other state is touched: the code closes no previous connection and invokes
no saga hook. -/
def registerSim (st : SystemState) (id name : String) (conn : Nat) :
    SystemState × List Envelope :=
  ({ st with registry := st.registry.register id name conn },
   [{ target := id, msg := { Msg.zero with type := "registered", status := "ok" } }])

/-- The disconnect path of the connection handler (part_007 lines 108–110):
`reg.Unregister(simID)` and nothing else — no step failure is synthesized,
no saga or lock state is touched, and no envelope is sent. -/
def disconnect (st : SystemState) (simID : String) : SystemState × List Envelope :=
  ({ st with registry := st.registry.unregister simID }, [])

/-! ## Saga-mutex lock traces

`saga.mu` is a `sync.RWMutex`.  The traces below record, in program order,
the operations each handler performs on it: `lock`/`unlock` are
`saga.mu.Lock()`/`saga.mu.Unlock()` (the deferred unlock is the final
element of a trace), `rlock`/`runlock` the read variants used inside the
compensation loop.  `lockOpsSafe` checks the Go runtime's rule that a
(write or read) unlock must find the mutex correspondingly held. -/

/-- One operation on the saga's `RWMutex`. -/
inductive LockOp
  | lock | unlock | rlock | runlock
  deriving Repr, DecidableEq

/-- Run a trace against (writer-held flag, reader count); `false` when some
unlock finds the mutex not held in the matching mode. -/
def lockOpsSafeAux : List LockOp → Bool → Nat → Bool
  | [], _, _ => true
  | LockOp.lock :: rest, _, r => lockOpsSafeAux rest true r
  | LockOp.unlock :: rest, w, r => w && lockOpsSafeAux rest false r
  | LockOp.rlock :: rest, w, r => lockOpsSafeAux rest w (r + 1)
  | LockOp.runlock :: rest, w, r => decide (0 < r) && lockOpsSafeAux rest w (r - 1)

/-- A trace is safe when every unlock is preceded by a matching acquire. -/
def lockOpsSafe (ops : List LockOp) : Bool := lockOpsSafeAux ops false 0

/-- `dispatchStep`'s operations on `saga.mu` (saga.go lines 351–356): the
status update runs under `Lock`/`Unlock` only after a successful write. -/
def dispatchLockOps (reg : Registry) (saga : Saga) (stepIndex : Nat) : List LockOp :=
  match dispatchStep reg saga stepIndex with
  | none => []
  | some _ => [LockOp.lock, LockOp.unlock]

/-- One compensation-loop iteration's operations on `saga.mu` (saga.go
lines 481–483 read the status under `RLock`; lines 524–526 mark the step
under `Lock` only when the compensation envelope was sent). -/
def compensateStepOps (reg : Registry) (saga : Saga) (i : Nat) : List LockOp :=
  [LockOp.rlock, LockOp.runlock] ++
    (if (compensateStep reg saga i).2.isEmpty then [] else [LockOp.lock, LockOp.unlock])

/-- The compensation loop's operations, visiting `i`, `i-1`, …, `0`. -/
def compensateDownOps (reg : Registry) : Saga → Nat → List LockOp
  | saga, 0 => compensateStepOps reg saga 0
  | saga, i + 1 =>
    compensateStepOps reg saga (i + 1) ++
      compensateDownOps reg (compensateStep reg saga (i + 1)).1 i

/-- `triggerCompensation`'s operations on `saga.mu` (saga.go lines 471–473
and 529–531 bracket the loop with `Lock`/`Unlock`). -/
def triggerCompensationOps (reg : Registry) (saga : Saga) (last : Int) : List LockOp :=
  [LockOp.lock, LockOp.unlock] ++
    (if last < 0 then []
     else compensateDownOps reg { saga with status := SagaStatus.Compensating } last.toNat) ++
    [LockOp.lock, LockOp.unlock]

/-- The operations `HandleStepCompletion` performs on `saga.mu`, per path:
`Lock` at line 373 with the matching `defer Unlock` at line 374 (the final
element); the early paths return under the defer alone; the last-step path
adds the manual `Unlock` at line 403; the advance path unlocks at line 414,
re-locks at line 424 after a successful dispatch, and on a failed dispatch
runs compensation and returns without re-locking. -/
def completionLockOps (reg : Registry) (es : EngineState) (sagaID : String)
    (stepID : Nat) (now : Nat) : List LockOp :=
  match lookupSaga es.sagas sagaID with
  | none => []
  | some saga =>
    LockOp.lock ::
    (match saga.steps[stepID]? with
     | none => []
     | some step =>
       if step.status ≠ StepStatus.InFlight then []
       else
         let step' := { step with status := StepStatus.Completed, completedAt := some now }
         let saga₁ := { saga with steps := saga.steps.set stepID step' }
         if stepID = saga.steps.length - 1 then [LockOp.unlock]
         else
           let saga₂ := { saga₁ with currentStep := stepID + 1 }
           match dispatchStep reg saga₂ (stepID + 1) with
           | some _ =>
             LockOp.unlock :: dispatchLockOps reg saga₂ (stepID + 1) ++ [LockOp.lock]
           | none =>
             LockOp.unlock :: dispatchLockOps reg saga₂ (stepID + 1) ++
               triggerCompensationOps reg saga₂ (stepID : Int)) ++
    [LockOp.unlock]

/-- The operations `HandleStepFailure` performs on `saga.mu`: `Lock` at line
439 with the `defer Unlock` at line 440 (the final element); the valid-step
path unlocks manually at line 456, runs compensation, and returns without
re-locking. -/
def failureLockOps (reg : Registry) (es : EngineState) (sagaID : String)
    (stepID : Nat) : List LockOp :=
  match lookupSaga es.sagas sagaID with
  | none => []
  | some saga =>
    LockOp.lock ::
    (match saga.steps[stepID]? with
     | none => []
     | some step =>
       let saga₁ :=
         { saga with
             steps := saga.steps.set stepID { step with status := StepStatus.Failed }
             status := SagaStatus.Failed }
       LockOp.unlock :: triggerCompensationOps reg saga₁ ((stepID : Int) - 1)) ++
    [LockOp.unlock]

/-! ## Spec-side descriptions of compensation (§4.4.5) -/

/-- Stated from the spec's words: step `i` is compensated exactly when it is
Completed, its compensation command is non-empty, and its target is still
registered. -/
def compensable (reg : Registry) (saga : Saga) (i : Nat) : Bool :=
  match saga.steps[i]? with
  | none => false
  | some step =>
    step.status == StepStatus.Completed && step.compensateCommand != "" &&
      (reg.get step.targetSimulation).isSome

/-- Stated from the spec's words: the envelope
`{type:"command", command:compensate_command, params:compensate_params,
saga_id, step_id:i}` sent to step `i`'s target. -/
def compensationEnvelope (saga : Saga) (i : Nat) : Envelope :=
  match saga.steps[i]? with
  | none => { target := "", msg := Msg.zero }
  | some step =>
    { target := step.targetSimulation
      msg := { Msg.zero with
        type := "command"
        command := step.compensateCommand
        params := step.compensateParams
        sagaID := saga.sagaID
        stepID := some i } }

/-! ## Reachable system states -/

/-- One atomic interaction with the server, as performed by the connection
handlers and the event-queue processor: a registration, a disconnect, a
saga creation from matched actions (with a fresh saga id — uniqueness of
the generated id is the contract of §4.4.1), or the delivery of a step
acknowledgment. -/
inductive SysStep : SystemState → SystemState → Prop
  | register (st : SystemState) (id name : String) (conn : Nat) :
      SysStep st (registerSim st id name conn).1
  | disconnect (st : SystemState) (id : String) :
      SysStep st (Orchestration.disconnect st id).1
  | create (st : SystemState) (actions : List Action) (sagaID : String) (now : Nat)
      (fresh : lookupSaga st.engine.sagas sagaID = none) :
      SysStep st { st with engine := (createSaga st.registry st.engine actions sagaID now).1 }
  | ackCompleted (st : SystemState) (sagaID : String) (stepID now : Nat) :
      SysStep st { st with engine := (handleStepCompletion st.registry st.engine sagaID stepID now).1 }
  | ackFailed (st : SystemState) (sagaID : String) (stepID : Nat) :
      SysStep st { st with engine := (handleStepFailure st.registry st.engine sagaID stepID).1 }

/-- States reachable from the freshly started server. -/
def Reachable (st : SystemState) : Prop :=
  Relation.ReflTransGen SysStep initState st

/-- A simulation id is held by a live (Pending or InProgress) saga. -/
def heldByLive (es : EngineState) (t : String) : Prop :=
  ∃ p ∈ es.sagas,
    ((Prod.snd p).status = SagaStatus.Pending ∨ (Prod.snd p).status = SagaStatus.InProgress) ∧
    t ∈ (Prod.snd p).lockedSims

/-- The engine invariant maintained by every transition.  `tracked` and
`uniqueHolder` are the heart of the per-target exclusion guarantee; the
other components support the induction. -/
structure EngineInv (es : EngineState) : Prop where
  keysNodup : (es.sagas.map Prod.fst).Nodup
  idMatch : ∀ p ∈ es.sagas, (Prod.snd p).sagaID = p.1
  lockedEqTargets : ∀ p ∈ es.sagas,
    (Prod.snd p).lockedSims = (Prod.snd p).steps.map SagaStep.targetSimulation
  noCompensating : ∀ p ∈ es.sagas, (Prod.snd p).status ≠ SagaStatus.Compensating
  tracked : ∀ p ∈ es.sagas, (Prod.snd p).nonTerminal →
    ∀ t ∈ (Prod.snd p).lockedSims, p.1 ∈ activeIds es t
  uniqueHolder : ∀ p ∈ es.sagas, ∀ q ∈ es.sagas, p.1 ≠ q.1 →
    (Prod.snd p).nonTerminal → (Prod.snd q).nonTerminal →
    ∀ t ∈ (Prod.snd p).lockedSims, t ∉ (Prod.snd q).lockedSims

/-! ## Concrete states used by the counterexamples -/

/-- A registry with `vr` and `cyber` connected. -/
def exReg : Registry :=
  Registry.register (Registry.register [] "cyber" "Cyber" 1) "vr" "VR" 2

/-- A step that has been dispatched to `vr` and not yet acknowledged. -/
def exStepInFlight : SagaStep :=
  { stepID := 0, targetSimulation := "vr", command := "show_alert"
    compensateCommand := "cancel_alert", params := [("msg", "!")], compensateParams := []
    status := StepStatus.InFlight, createdAt := 0, completedAt := none }

/-- A single-step saga whose step 0 is in flight against `vr`. -/
def exSagaInFlight : Saga :=
  { sagaID := "saga_1", currentStep := 0, status := SagaStatus.InProgress
    steps := [exStepInFlight], lockedSims := ["vr"] }

/-- The engine state after creating `exSagaInFlight`: the saga holds the
`vr` exclusion lock and is tracked against `vr`. -/
def exEngineInFlight : EngineState :=
  { sagas := [("saga_1", exSagaInFlight)], heldLocks := ["vr"]
    activeSagas := [("vr", ["saga_1"])] }

/-- The corresponding whole-server state. -/
def exStateInFlight : SystemState :=
  { registry := exReg, engine := exEngineInFlight, closedConns := [] }

/-- A completed two-step saga (steps 0 and 1 Completed, all locks already
released, tracking already cleaned). -/
def exSagaDone : Saga :=
  { sagaID := "saga_2", currentStep := 1, status := SagaStatus.Completed
    steps :=
      [{ stepID := 0, targetSimulation := "vr", command := "on"
         compensateCommand := "off", params := [], compensateParams := []
         status := StepStatus.Completed, createdAt := 0, completedAt := some 1 },
       { stepID := 1, targetSimulation := "sensor", command := "activate"
         compensateCommand := "deactivate", params := [], compensateParams := []
         status := StepStatus.Completed, createdAt := 0, completedAt := some 2 }]
    lockedSims := ["vr", "sensor"] }

/-- The engine state after `exSagaDone` completed. -/
def exEngineDone : EngineState :=
  { sagas := [("saga_2", exSagaDone)], heldLocks := [], activeSagas := [] }

/-- An action targeting `vr`. -/
def exActionVr : Action :=
  { sendTo := "vr", command := "show_alert", params := [("msg", "!")]
    compensateCommand := "cancel_alert", compensateParams := [] }

end Orchestration

namespace Orchestration

/-- C9 helper: `processRules` agrees with the spec-side filter/concatenate
formulation, rule by rule. -/
theorem processRules_eq_spec (event : Event) (rules : List Rule) :
    processRules event rules = matchActionsSpec rules event := by
  induction rules with
  | nil => rfl
  | cons r rest ih =>
    by_cases htype : r.when.eventType = event.eventType
    · by_cases hfrom : r.when.from_ ≠ "" ∧ r.when.from_ ≠ event.source
      · have hm : ruleMatches event r = false := by
          simp only [ruleMatches, htype]
          simp_all [ruleMatches]
        simp [processRules, htype, hfrom, matchActionsSpec, hm] at *
        simpa [matchActionsSpec] using ih
      · have hm : ruleMatches event r = true := by
          simp only [ruleMatches]
          rcases not_and_or.mp hfrom with h | h
          · simp_all
          · simp_all
        simp only [processRules, htype]
        rw [if_neg (by simp), if_neg hfrom, ih]
        simp [matchActionsSpec, hm]
    · have hm : ruleMatches event r = false := by
        simp [ruleMatches, htype]
      simp [processRules, htype, matchActionsSpec, hm, ih]

/-- C9: for every event and loaded rule set, rule matching returns exactly
the concatenation, in declared rule order, of the `then`-lists of the rules
whose `when.event_type` equals the event's event type and whose `when.from`,
when non-empty, equals the event's source; an event matching no rule (and
the not-yet-loaded state) yields the empty list.  Matching is a pure
function of the event and the rule set: `processEvent` reads no other state
and mutates none. -/
theorem scenarioC9_matching (sc : Scenario) (event : Event) :
    processEvent (some sc) event = matchActionsSpec sc.rules event ∧
    processEvent none event = [] ∧
    ((∀ r ∈ sc.rules, ruleMatches event r = false) →
      processEvent (some sc) event = []) := by
  refine ⟨processRules_eq_spec event sc.rules, rfl, fun h => ?_⟩
  rw [processEvent, processRules_eq_spec event sc.rules, matchActionsSpec]
  rw [List.filter_eq_nil_iff.mpr (by intro r hr; simp [h r hr])]
  rfl

/-- C9 witness: the theorem instantiated at a concrete scenario and event. -/
theorem scenarioC9_matching_witness :
    processEvent (some { name := "s", rules := [] }) { type := "event", eventType := "e", source := "x" } =
      matchActionsSpec [] { type := "event", eventType := "e", source := "x" } :=
  (scenarioC9_matching { name := "s", rules := [] }
    { type := "event", eventType := "e", source := "x" }).1

/-- C10: `enqueue` is non-blocking (a total function of the queue value) and
returns `false` exactly when the queue is closed or the buffer already holds
its configured capacity of items; the server constructs the queue with the
default capacity 1000; on a rejected event envelope the connection handler
emits exactly one `error/queue_full` envelope to the producer and keeps the
connection (and emits nothing on acceptance). -/
theorem queueC10_enqueue (q : EventQueue) (simID : String) (msg : Msg) :
    ((q.enqueue simID msg).2 = false ↔ (q.closed = true ∨ q.capacity ≤ q.buffer.length)) ∧
    serverEventQueue.capacity = 1000 ∧
    (handleEventMessage q simID msg).2.1 =
      (if (q.enqueue simID msg).2 then [] else [queueFullEnvelope simID]) ∧
    (handleEventMessage q simID msg).2.2 = true := by
  refine ⟨?_, rfl, ?_, ?_⟩
  · unfold EventQueue.enqueue
    by_cases hc : q.closed
    · simp [hc]
    · by_cases hlen : q.buffer.length < q.capacity
      · simp [hc, hlen, Nat.not_le.mpr hlen]
      · simp [hc, hlen, Nat.le_of_not_lt (by exact fun h => hlen h)]
  · unfold handleEventMessage
    by_cases h : (q.enqueue simID msg).2 <;> simp [h]
  · unfold handleEventMessage
    by_cases h : (q.enqueue simID msg).2 <;> simp [h]

/-- C4 (code bug, evaluated at the failing inputs): completing the last
step of a saga makes `HandleStepCompletion` release the saga mutex at line
403 and then again through the deferred unlock of line 374, and every valid
`HandleStepFailure` call releases at line 456 and again through the
deferred unlock of line 440 — both traces unlock an already-unlocked mutex,
contradicting the claim that every release is preceded by a matching
acquire. -/
theorem sagaC4_doubleUnlock :
    lockOpsSafe (completionLockOps exReg exEngineInFlight "saga_1" 0 1) = false ∧
    lockOpsSafe (failureLockOps exReg exEngineInFlight "saga_1" 0) = false := by
  decide

/-- C1 counterexample: in a state where saga `saga_1` holds the exclusion
lock on `vr` and its step 0 is InFlight against `vr`, unregistering `vr`
(the connection handler's disconnect path) leaves the saga InProgress — not
Failed — leaves the lock held, and sends nothing; only the registry entry
disappears.  This falsifies the claim that a step-failure is synthesized,
the saga fails, and its locks are released. -/
theorem sagaC1_counterexample :
    (lookupSaga ((disconnect exStateInFlight "vr").1.engine.sagas) "saga_1").map Saga.status
        = some SagaStatus.InProgress ∧
    "vr" ∈ (disconnect exStateInFlight "vr").1.engine.heldLocks ∧
    (disconnect exStateInFlight "vr").2 = [] ∧
    Registry.get (disconnect exStateInFlight "vr").1.registry "vr" = none := by
  decide

/-- Helper: looking up in the registry after `Unregister`. -/
theorem get_unregister (r : Registry) (simID id' : String) :
    Registry.get (Registry.unregister r simID) id' =
      (if id' = simID then none else Registry.get r id') := by
  induction r with
  | nil => simp [Registry.get, Registry.unregister]
  | cons s rest ih =>
    unfold Registry.unregister Registry.get at ih ⊢
    by_cases hs : s.id = simID
    · rw [List.filter_cons_of_neg (by simp [hs])]
      rw [ih]
      by_cases h' : id' = simID
      · simp [h']
      · have hb : (s.id == id') = false := by
          rw [beq_eq_false_iff_ne]
          intro hh
          exact h' (hh ▸ hs)
        rw [if_neg h', if_neg h', List.find?_cons, hb]
    · rw [List.filter_cons_of_pos (by simp [hs])]
      by_cases hm : s.id = id'
      · have h' : id' ≠ simID := fun h => hs (hm.trans h)
        have hb : (s.id == id') = true := by simp [hm]
        rw [if_neg h', List.find?_cons, List.find?_cons, hb]
      · have hb : (s.id == id') = false := by simp [hm]
        rw [List.find?_cons, hb, ih]
        by_cases h' : id' = simID
        · simp [h']
        · rw [if_neg h', if_neg h', List.find?_cons, hb]

/-- C1 (amended): unregistering a simulation id removes exactly that id's
registry entry and changes nothing else — no step-failure is synthesized
for any saga (whatever its state), the engine's sagas, locks and tracking
tables are untouched, no connection is closed, and no envelope is sent. -/
theorem sagaC1_amended (st : SystemState) (simID id' : String) :
    (disconnect st simID).1.engine = st.engine ∧
    (disconnect st simID).1.closedConns = st.closedConns ∧
    (disconnect st simID).2 = [] ∧
    Registry.get (disconnect st simID).1.registry id' =
      (if id' = simID then none else Registry.get st.registry id') :=
  ⟨rfl, rfl, rfl, get_unregister st.registry simID id'⟩

/-- C2 counterexample: with `vr` registered on connection 2 and the
non-terminal saga `saga_1` holding the `vr` lock, registering `vr` again
(new name, connection 7) replaces the stored entry but closes no connection
and leaves the saga InProgress with its lock held — falsifying the claim
that the previous send-handle is closed and the saga is failed. -/
theorem registryC2_counterexample :
    Registry.get (registerSim exStateInFlight "vr" "VR2" 7).1.registry "vr"
        = some { id := "vr", name := "VR2", conn := 7 } ∧
    (registerSim exStateInFlight "vr" "VR2" 7).1.closedConns = [] ∧
    (lookupSaga (registerSim exStateInFlight "vr" "VR2" 7).1.engine.sagas "saga_1").map Saga.status
        = some SagaStatus.InProgress ∧
    "vr" ∈ (registerSim exStateInFlight "vr" "VR2" 7).1.engine.heldLocks := by
  decide

/-- Helper: looking up in the registry after `Register`. -/
theorem get_register (r : Registry) (id name : String) (conn : Nat) (id' : String) :
    Registry.get (Registry.register r id name conn) id' =
      (if id' = id then some { id := id, name := name, conn := conn }
       else Registry.get r id') := by
  by_cases h : id' = id
  · simp [Registry.register, Registry.get, h]
  · have hne : (id == id') = false := by
      simp; exact fun hh => h hh.symm
    have : Registry.get (Registry.register r id name conn) id'
        = Registry.get (Registry.unregister r id) id' := by
      simp [Registry.register, Registry.get, Registry.unregister, List.find?, hne]
    rw [this, get_unregister, if_neg h, if_neg h]

/-- C2 (amended): registering an already-registered id replaces the stored
entry with the new one (later lookups of that id return the new
name/handle, all other ids are unaffected), but the previous entry's
send-handle is not closed, no saga is failed, and the only outbound frame
is the `registered/ok` confirmation to the new connection. -/
theorem registryC2_amended (st : SystemState) (id name : String) (conn : Nat)
    (id' : String) :
    Registry.get (registerSim st id name conn).1.registry id' =
      (if id' = id then some { id := id, name := name, conn := conn }
       else Registry.get st.registry id') ∧
    (registerSim st id name conn).1.engine = st.engine ∧
    (registerSim st id name conn).1.closedConns = st.closedConns ∧
    (registerSim st id name conn).2 =
      [{ target := id, msg := { Msg.zero with type := "registered", status := "ok" } }] :=
  ⟨get_register st.registry id name conn id', rfl, rfl, rfl⟩

/-- Compensation always leaves the saga Failed (saga.go lines 529–531). -/
theorem triggerCompensation_status (reg : Registry) (saga : Saga) (last : Int) :
    (triggerCompensation reg saga last).1.status = SagaStatus.Failed := rfl

/-- `untrackActiveSimulation` touches only the tracking table. -/
theorem untrackActive_sagas (es : EngineState) (simID sagaID : String) :
    (untrackActive es simID sagaID).sagas = es.sagas := by
  unfold untrackActive
  split
  · rfl
  · dsimp only
    split <;> rfl

/-- `untrackActiveSimulation` touches only the tracking table. -/
theorem untrackActive_heldLocks (es : EngineState) (simID sagaID : String) :
    (untrackActive es simID sagaID).heldLocks = es.heldLocks := by
  unfold untrackActive
  split
  · rfl
  · dsimp only
    split <;> rfl

/-- `cleanupSimulationLocks` touches only the tracking table. -/
theorem cleanup_sagas (saga : Saga) : ∀ (l : List String) (es : EngineState),
    (l.foldl (fun e t => untrackActive e t saga.sagaID) es).sagas = es.sagas := by
  intro l
  induction l with
  | nil => intro es; rfl
  | cons t rest ih =>
    intro es
    rw [List.foldl_cons, ih, untrackActive_sagas]

/-- `cleanupSimulationLocks` touches only the tracking table. -/
theorem cleanupSimulationLocks_sagas (es : EngineState) (saga : Saga) :
    (cleanupSimulationLocks es saga).sagas = es.sagas :=
  cleanup_sagas saga _ es

/-- `cleanupSimulationLocks` touches only the tracking table. -/
theorem cleanup_heldLocks (saga : Saga) : ∀ (l : List String) (es : EngineState),
    (l.foldl (fun e t => untrackActive e t saga.sagaID) es).heldLocks = es.heldLocks := by
  intro l
  induction l with
  | nil => intro es; rfl
  | cons t rest ih =>
    intro es
    rw [List.foldl_cons, ih, untrackActive_heldLocks]

/-- `releaseAllLocksForSaga` touches only the lock set. -/
theorem releaseAllLocks_sagas (es : EngineState) (saga : Saga) :
    (releaseAllLocksForSaga es saga).sagas = es.sagas := rfl

/-- Looking the overwritten key up after a map assignment. -/
theorem lookupSaga_setSaga_self (l : List (String × Saga)) (k : String) (g : Saga) :
    lookupSaga (setSaga l k g) k = (lookupSaga l k).map (fun _ => g) := by
  induction l with
  | nil => rfl
  | cons p rest ih =>
    by_cases hp : p.1 = k
    · unfold setSaga lookupSaga
      rw [List.map_cons, if_pos hp]
      rw [List.find?_cons, List.find?_cons]
      have h1 : ((k, g).1 == k) = true := by simp
      have h2 : (p.1 == k) = true := by simp [hp]
      rw [h1, h2]
      rfl
    · unfold setSaga lookupSaga at ih ⊢
      rw [List.map_cons, if_neg hp]
      rw [List.find?_cons, List.find?_cons]
      have h2 : (p.1 == k) = false := by simp [hp]
      rw [h2]
      exact ih

/-- Looking another key up after a map assignment. -/
theorem lookupSaga_setSaga_ne (l : List (String × Saga)) (k k' : String) (g : Saga)
    (h : k' ≠ k) :
    lookupSaga (setSaga l k g) k' = lookupSaga l k' := by
  induction l with
  | nil => rfl
  | cons p rest ih =>
    by_cases hp : p.1 = k
    · unfold setSaga lookupSaga at ih ⊢
      rw [List.map_cons, if_pos hp]
      rw [List.find?_cons, List.find?_cons]
      have h1 : ((k, g).1 == k') = false := by simp [Ne.symm h]
      have h2 : (p.1 == k') = false := by
        rw [beq_eq_false_iff_ne]
        intro hh
        exact h (hh ▸ hp ▸ rfl)
      rw [h1, h2]
      exact ih
    · unfold setSaga lookupSaga at ih ⊢
      rw [List.map_cons, if_neg hp]
      rw [List.find?_cons, List.find?_cons]
      cases hb : (p.1 == k')
      · exact ih
      · rfl

/-- The sagas map of the state produced by `handleStepFailure` on a valid
step id: the stored record is the compensated saga. -/
theorem handleStepFailure_lookup (reg : Registry) (es : EngineState)
    (sagaID : String) (stepID : Nat) (g : Saga) (step : SagaStep)
    (hsaga : lookupSaga es.sagas sagaID = some g)
    (hstep : g.steps[stepID]? = some step) :
    lookupSaga (handleStepFailure reg es sagaID stepID).1.sagas sagaID =
      some (triggerCompensation reg
        { g with
            steps := g.steps.set stepID { step with status := StepStatus.Failed }
            status := SagaStatus.Failed } ((stepID : Int) - 1)).1 := by
  unfold handleStepFailure
  rw [hsaga]
  dsimp only
  rw [hstep]
  dsimp only
  rw [releaseAllLocks_sagas, cleanupSimulationLocks_sagas]
  dsimp only
  rw [lookupSaga_setSaga_self, hsaga]
  rfl

/-- C3 counterexample: `saga_2` is Completed (both steps Completed), yet
delivering `step.failed` for step 1 flips the saga to Failed and sends a
compensation envelope for step 0 — falsifying the claim that no
acknowledgment delivered after Completed changes the saga or produces
outbound traffic. -/
theorem sagaC3_counterexample :
    (lookupSaga exEngineDone.sagas "saga_2").map Saga.status = some SagaStatus.Completed ∧
    (lookupSaga (handleStepFailure exReg exEngineDone "saga_2" 1).1.sagas "saga_2").map
        Saga.status = some SagaStatus.Failed ∧
    (handleStepFailure exReg exEngineDone "saga_2" 1).2.1 =
      [compensationEnvelope exSagaDone 0] ∧
    (compensationEnvelope exSagaDone 0).msg.command = "off" ∧
    (compensationEnvelope exSagaDone 0).target = "vr" := by
  decide

/-- C3 (amended): Completed is terminal for `step.completed`
acknowledgments: delivering any `step.completed` to a Completed saga — none
of whose steps is InFlight — leaves the engine state unchanged and sends
nothing.  It is not terminal for `step.failed`: delivering a valid
`step.failed` to a Completed saga sets the saga's status to Failed (running
compensation as in §4.4.5). -/
theorem sagaC3_amended (reg : Registry) (es : EngineState) (sagaID : String)
    (stepID now : Nat) (g : Saga)
    (hsaga : lookupSaga es.sagas sagaID = some g)
    (_hc : g.status = SagaStatus.Completed)
    (hni : ∀ s ∈ g.steps, s.status ≠ StepStatus.InFlight) :
    ((handleStepCompletion reg es sagaID stepID now).1 = es ∧
     (handleStepCompletion reg es sagaID stepID now).2.1 = []) ∧
    (∀ step, g.steps[stepID]? = some step →
      (lookupSaga (handleStepFailure reg es sagaID stepID).1.sagas sagaID).map Saga.status
        = some SagaStatus.Failed) := by
  constructor
  · unfold handleStepCompletion
    rw [hsaga]
    dsimp only
    cases hstep : g.steps[stepID]? with
    | none => exact ⟨rfl, rfl⟩
    | some step =>
      dsimp only
      have : step.status ≠ StepStatus.InFlight :=
        hni step (List.getElem?_mem hstep)
      rw [if_pos this]
      exact ⟨rfl, rfl⟩
  · intro step hstep
    rw [handleStepFailure_lookup reg es sagaID stepID g step hsaga hstep]
    rw [Option.map_some']
    rw [triggerCompensation_status]

/-- C3 witness: the amended theorem applied to the concrete completed saga
`saga_2`. -/
theorem sagaC3_amended_witness :
    ((handleStepCompletion exReg exEngineDone "saga_2" 0 5).1 = exEngineDone ∧
     (handleStepCompletion exReg exEngineDone "saga_2" 0 5).2.1 = []) ∧
    (∀ step, exSagaDone.steps[0]? = some step →
      (lookupSaga (handleStepFailure exReg exEngineDone "saga_2" 0).1.sagas "saga_2").map
          Saga.status = some SagaStatus.Failed) :=
  sagaC3_amended exReg exEngineDone "saga_2" 0 5 exSagaDone (by decide) (by decide)
    (by decide)

/-- A successful dispatch changes nothing about the saga except the
dispatched step's status (and a Pending→InProgress upgrade). -/
theorem dispatchStep_some (reg : Registry) (saga : Saga) (i : Nat)
    (d : Saga × Envelope) (h : dispatchStep reg saga i = some d) :
    d.1.sagaID = saga.sagaID ∧ d.1.steps.length = saga.steps.length ∧
    d.1.lockedSims = saga.lockedSims ∧
    (∀ j, j ≠ i → d.1.steps[j]? = saga.steps[j]?) := by
  unfold dispatchStep at h
  cases hs : saga.steps[i]? with
  | none => rw [hs] at h; exact absurd h (by simp)
  | some step =>
    rw [hs] at h
    dsimp only at h
    cases hg : Registry.get reg step.targetSimulation with
    | none => rw [hg] at h; exact absurd h (by simp)
    | some sim =>
      rw [hg] at h
      dsimp only at h
      have hd := (Option.some.injEq _ _).mp h
      rw [← hd]
      refine ⟨rfl, by simp, rfl, fun j hj => ?_⟩
      exact List.getElem?_set_ne (fun hh => hj hh.symm)

/-- One compensation iteration leaves every step either unchanged or marked
Failed (and touches only the visited index). -/
theorem compensateStep_getElem (reg : Registry) (saga : Saga) (i j : Nat)
    (st : SagaStep) (h : saga.steps[j]? = some st) :
    (compensateStep reg saga i).1.steps[j]? = some st ∨
    (compensateStep reg saga i).1.steps[j]? =
      some { st with status := StepStatus.Failed } := by
  unfold compensateStep
  cases hs : saga.steps[i]? with
  | none => exact Or.inl h
  | some step =>
    dsimp only
    by_cases h1 : step.status ≠ StepStatus.Completed
    · rw [if_pos h1]; exact Or.inl h
    · rw [if_neg h1]
      by_cases h2 : step.compensateCommand = ""
      · rw [if_pos h2]; exact Or.inl h
      · rw [if_neg h2]
        cases hg : Registry.get reg step.targetSimulation with
        | none => exact Or.inl h
        | some sim =>
          dsimp only
          by_cases hij : j = i
          · subst hij
            have hst : step = st := by
              rw [h] at hs; exact ((Option.some.injEq _ _).mp hs).symm
            subst hst
            have hlt : j < saga.steps.length := by
              by_contra hge
              rw [List.getElem?_eq_none (Nat.le_of_not_lt hge)] at h
              exact absurd h (by simp)
            right
            simp [List.getElem?_set_self hlt]
          · left
            rw [List.getElem?_set_ne (fun hh => hij hh.symm)]
            exact h

/-- The compensation loop leaves every step either unchanged or marked
Failed. -/
theorem compensateDown_getElem (reg : Registry) :
    ∀ (n : Nat) (saga : Saga) (j : Nat) (st : SagaStep),
    saga.steps[j]? = some st →
    (compensateDown reg saga n).1.steps[j]? = some st ∨
    (compensateDown reg saga n).1.steps[j]? =
      some { st with status := StepStatus.Failed } := by
  intro n
  induction n with
  | zero => intro saga j st h; exact compensateStep_getElem reg saga 0 j st h
  | succ n ih =>
    intro saga j st h
    unfold compensateDown
    dsimp only
    rcases compensateStep_getElem reg saga (n + 1) j st h with h' | h'
    · exact ih _ j st h'
    · rcases ih _ j _ h' with h'' | h''
      · exact Or.inr h''
      · exact Or.inr h''

/-- `triggerCompensation` leaves every step either unchanged or marked
Failed. -/
theorem triggerCompensation_getElem (reg : Registry) (saga : Saga) (last : Int)
    (j : Nat) (st : SagaStep) (h : saga.steps[j]? = some st) :
    (triggerCompensation reg saga last).1.steps[j]? = some st ∨
    (triggerCompensation reg saga last).1.steps[j]? =
      some { st with status := StepStatus.Failed } := by
  unfold triggerCompensation
  dsimp only
  by_cases hneg : last < 0
  · rw [if_pos hneg]; exact Or.inl h
  · rw [if_neg hneg]
    exact compensateDown_getElem reg last.toNat
      { saga with status := SagaStatus.Compensating } j st h

/-- C8: delivering the same `step.completed` acknowledgment twice is
equivalent to delivering it once — whatever the first delivery did, the
second finds the referenced step no longer InFlight (or the saga/step still
unknown) and leaves the engine state unchanged, sending no envelope. -/
theorem sagaC8_idempotent (reg : Registry) (es : EngineState) (sagaID : String)
    (stepID now now' : Nat) :
    (handleStepCompletion reg (handleStepCompletion reg es sagaID stepID now).1
        sagaID stepID now').1
      = (handleStepCompletion reg es sagaID stepID now).1 ∧
    (handleStepCompletion reg (handleStepCompletion reg es sagaID stepID now).1
        sagaID stepID now').2.1 = [] := by
  cases hsaga : lookupSaga es.sagas sagaID with
  | none =>
    have h1 : handleStepCompletion reg es sagaID stepID now =
        (es, [], AckResult.sagaNotFound) := by
      unfold handleStepCompletion; rw [hsaga]
    have h2 : handleStepCompletion reg es sagaID stepID now' =
        (es, [], AckResult.sagaNotFound) := by
      unfold handleStepCompletion; rw [hsaga]
    rw [h1]
    exact ⟨congrArg (fun p => p.1) h2, congrArg (fun p => p.2.1) h2⟩
  | some saga =>
    cases hstep : saga.steps[stepID]? with
    | none =>
      have h1 : handleStepCompletion reg es sagaID stepID now =
          (es, [], AckResult.invalidStep) := by
        unfold handleStepCompletion; rw [hsaga]; dsimp only; rw [hstep]
      have h2 : handleStepCompletion reg es sagaID stepID now' =
          (es, [], AckResult.invalidStep) := by
        unfold handleStepCompletion; rw [hsaga]; dsimp only; rw [hstep]
      rw [h1]
      exact ⟨congrArg (fun p => p.1) h2, congrArg (fun p => p.2.1) h2⟩
    | some step =>
      by_cases hif : step.status ≠ StepStatus.InFlight
      · have h1 : handleStepCompletion reg es sagaID stepID now =
            (es, [], AckResult.ok) := by
          unfold handleStepCompletion
          rw [hsaga]; dsimp only; rw [hstep]; dsimp only; rw [if_pos hif]
        have h2 : handleStepCompletion reg es sagaID stepID now' =
            (es, [], AckResult.ok) := by
          unfold handleStepCompletion
          rw [hsaga]; dsimp only; rw [hstep]; dsimp only; rw [if_pos hif]
        rw [h1]
        exact ⟨congrArg (fun p => p.1) h2, congrArg (fun p => p.2.1) h2⟩
      · have hlt : stepID < saga.steps.length := by
          by_contra hge
          rw [List.getElem?_eq_none (Nat.le_of_not_lt hge)] at hstep
          exact absurd hstep (by simp)
        by_cases hlast : stepID = saga.steps.length - 1
        · -- first delivery completes the saga
          set step' : SagaStep :=
            { step with status := StepStatus.Completed, completedAt := some now }
            with hstep'
          set saga₂ : Saga :=
            { saga with
              steps := saga.steps.set stepID step'
              status := SagaStatus.Completed } with hsaga₂
          set esFin : EngineState :=
            releaseAllLocksForSaga
              (cleanupSimulationLocks
                { es with sagas := setSaga es.sagas sagaID saga₂ } saga₂) saga₂
            with hesFin
          have h1 : handleStepCompletion reg es sagaID stepID now =
              (esFin, [], AckResult.ok) := by
            unfold handleStepCompletion
            rw [hsaga]; dsimp only; rw [hstep]; dsimp only
            rw [if_neg hif, if_pos hlast]
          have hlook : lookupSaga esFin.sagas sagaID = some saga₂ := by
            rw [hesFin, releaseAllLocks_sagas, cleanupSimulationLocks_sagas]
            dsimp only
            rw [lookupSaga_setSaga_self, hsaga]
            rfl
          have hstep₂ : saga₂.steps[stepID]? = some step' := by
            rw [hsaga₂]
            exact List.getElem?_set_self hlt
          have h2 : handleStepCompletion reg esFin sagaID stepID now' =
              (esFin, [], AckResult.ok) := by
            unfold handleStepCompletion
            rw [hlook]
            dsimp only
            rw [hstep₂]
            dsimp only
            rw [if_pos (by simp)]
          rw [h1]
          exact ⟨congrArg (fun p => p.1) h2, congrArg (fun p => p.2.1) h2⟩
        · -- first delivery advances (or fails to dispatch the next step)
          set step' : SagaStep :=
            { step with status := StepStatus.Completed, completedAt := some now }
            with hstep'
          set saga₂ : Saga :=
            { saga with
              steps := saga.steps.set stepID step'
              currentStep := stepID + 1 } with hsaga₂
          have hstep₂ : saga₂.steps[stepID]? = some step' := by
            rw [hsaga₂]
            exact List.getElem?_set_self hlt
          cases hd : dispatchStep reg saga₂ (stepID + 1) with
          | some d =>
            set esFin : EngineState :=
              { es with sagas := setSaga es.sagas sagaID d.1 } with hesFin
            have h1 : handleStepCompletion reg es sagaID stepID now =
                (esFin, [d.2], AckResult.ok) := by
              unfold handleStepCompletion
              rw [hsaga]; dsimp only; rw [hstep]; dsimp only
              rw [if_neg hif, if_neg hlast]
              rw [hd]
            obtain ⟨-, -, -, hsteps⟩ := dispatchStep_some reg saga₂ (stepID + 1) d hd
            have hlook : lookupSaga esFin.sagas sagaID = some d.1 := by
              rw [hesFin]
              dsimp only
              rw [lookupSaga_setSaga_self, hsaga]
              rfl
            have hstepd : d.1.steps[stepID]? = some step' := by
              rw [hsteps stepID (Nat.ne_of_lt (Nat.lt_succ_self stepID)), hstep₂]
            have h2 : handleStepCompletion reg esFin sagaID stepID now' =
                (esFin, [], AckResult.ok) := by
              unfold handleStepCompletion
              rw [hlook]
              dsimp only
              rw [hstepd]
              dsimp only
              rw [if_pos (by simp)]
            rw [h1]
            exact ⟨congrArg (fun p => p.1) h2, congrArg (fun p => p.2.1) h2⟩
          | none =>
            set rC := triggerCompensation reg saga₂ (stepID : Int) with hrC
            set esFin : EngineState :=
              { es with sagas := setSaga es.sagas sagaID rC.1 } with hesFin
            have h1 : handleStepCompletion reg es sagaID stepID now =
                (esFin, rC.2, AckResult.dispatchError) := by
              unfold handleStepCompletion
              rw [hsaga]; dsimp only; rw [hstep]; dsimp only
              rw [if_neg hif, if_neg hlast]
              rw [hd]
            have hlook : lookupSaga esFin.sagas sagaID = some rC.1 := by
              rw [hesFin]
              dsimp only
              rw [lookupSaga_setSaga_self, hsaga]
              rfl
            have hnif : ∀ st', rC.1.steps[stepID]? = some st' →
                st'.status ≠ StepStatus.InFlight := by
              intro st' hst'
              rcases triggerCompensation_getElem reg saga₂ (stepID : Int) stepID step'
                hstep₂ with hc | hc
              · rw [hst'] at hc
                have heq : st' = step' := by
                  exact ((Option.some.injEq _ _).mp hc.symm).symm
                rw [heq, hstep']
                simp
              · rw [hst'] at hc
                have heq : st' = { step' with status := StepStatus.Failed } := by
                  exact ((Option.some.injEq _ _).mp hc.symm).symm
                rw [heq]
                simp
            have h2 : handleStepCompletion reg esFin sagaID stepID now' =
                (esFin, [], AckResult.ok) := by
              unfold handleStepCompletion
              rw [hlook]
              dsimp only
              cases hst' : rC.1.steps[stepID]? with
              | none =>
                rcases triggerCompensation_getElem reg saga₂ (stepID : Int) stepID step'
                  hstep₂ with hc | hc
                · rw [hst'] at hc; exact absurd hc (by simp)
                · rw [hst'] at hc; exact absurd hc (by simp)
              | some st' =>
                dsimp only
                rw [if_pos (hnif st' hst')]
            rw [h1]
            exact ⟨congrArg (fun p => p.1) h2, congrArg (fun p => p.2.1) h2⟩

/-- A compensable index has a step record. -/
theorem compensable_some (reg : Registry) (s : Saga) (i : Nat)
    (h : compensable reg s i = true) : ∃ st, s.steps[i]? = some st := by
  unfold compensable at h
  cases hs : s.steps[i]? with
  | none => rw [hs] at h; exact absurd h (by simp)
  | some st => exact ⟨st, rfl⟩

/-- A non-compensable index is skipped by the compensation loop body. -/
theorem compensateStep_of_not_compensable (reg : Registry) (s : Saga) (i : Nat)
    (h : compensable reg s i = false) : compensateStep reg s i = (s, []) := by
  unfold compensable at h
  unfold compensateStep
  cases hs : s.steps[i]? with
  | none => rfl
  | some step =>
    rw [hs] at h
    dsimp only at h ⊢
    by_cases h1 : step.status ≠ StepStatus.Completed
    · rw [if_pos h1]
    · rw [if_neg h1]
      push_neg at h1
      by_cases h2 : step.compensateCommand = ""
      · rw [if_pos h2]
      · rw [if_neg h2]
        cases hg : Registry.get reg step.targetSimulation with
        | none => rfl
        | some sim =>
          exfalso
          rw [hg] at h
          simp [h1, h2] at h

/-- A compensable index sends the compensation envelope and is marked
Failed by the compensation loop body. -/
theorem compensateStep_of_compensable (reg : Registry) (s : Saga) (i : Nat)
    (st : SagaStep) (hs : s.steps[i]? = some st) (h : compensable reg s i = true) :
    compensateStep reg s i =
      ({ s with steps := s.steps.set i { st with status := StepStatus.Failed } },
       [compensationEnvelope s i]) := by
  unfold compensable at h
  rw [hs] at h
  simp only [Bool.and_eq_true, beq_iff_eq, bne_iff_ne, ne_eq] at h
  obtain ⟨⟨h1, h2⟩, h3⟩ := h
  unfold compensateStep
  rw [hs]
  dsimp only
  rw [if_neg (by simp [h1]), if_neg h2]
  cases hg : Registry.get reg st.targetSimulation with
  | none => rw [hg] at h3; exact absurd h3 (by simp)
  | some sim =>
    dsimp only
    unfold compensationEnvelope
    rw [hs]

/-- The compensation loop body leaves other indices untouched. -/
theorem compensateStep_steps_ne (reg : Registry) (s : Saga) (i j : Nat)
    (h : j ≠ i) : (compensateStep reg s i).1.steps[j]? = s.steps[j]? := by
  cases hc : compensable reg s i with
  | false => rw [compensateStep_of_not_compensable reg s i hc]
  | true =>
    obtain ⟨st, hst⟩ := compensable_some reg s i hc
    rw [compensateStep_of_compensable reg s i st hst hc]
    dsimp only
    exact List.getElem?_set_ne (fun hh => h hh.symm)

/-- The compensation loop body does not change the saga id. -/
theorem compensateStep_sagaID (reg : Registry) (s : Saga) (i : Nat) :
    (compensateStep reg s i).1.sagaID = s.sagaID := by
  cases hc : compensable reg s i with
  | false => rw [compensateStep_of_not_compensable reg s i hc]
  | true =>
    obtain ⟨st, hst⟩ := compensable_some reg s i hc
    rw [compensateStep_of_compensable reg s i st hst hc]

/-- Compensability only looks at the step record. -/
theorem compensable_congr (reg : Registry) (s s' : Saga) (j : Nat)
    (h : s'.steps[j]? = s.steps[j]?) : compensable reg s' j = compensable reg s j := by
  unfold compensable
  rw [h]

/-- The compensation envelope only looks at the step record and saga id. -/
theorem compensationEnvelope_congr (s s' : Saga) (j : Nat)
    (h : s'.steps[j]? = s.steps[j]?) (hid : s'.sagaID = s.sagaID) :
    compensationEnvelope s' j = compensationEnvelope s j := by
  unfold compensationEnvelope
  rw [h, hid]

/-- The compensation loop's envelope output: exactly the compensable
indices among `last, …, 0`, in that order. -/
theorem compensateDown_envs (reg : Registry) : ∀ (last : Nat) (s : Saga),
    (compensateDown reg s last).2 =
      ((List.range (last + 1)).reverse.filter (compensable reg s)).map
        (compensationEnvelope s) := by
  intro last
  induction last with
  | zero =>
    intro s
    show (compensateStep reg s 0).2 = _
    cases hc : compensable reg s 0 with
    | false =>
      rw [compensateStep_of_not_compensable reg s 0 hc]
      simp [hc]
    | true =>
      obtain ⟨st, hst⟩ := compensable_some reg s 0 hc
      rw [compensateStep_of_compensable reg s 0 st hst hc]
      simp [hc, List.range_succ]
  | succ n ih =>
    intro s
    have hrev : (List.range (n + 2)).reverse = (n + 1) :: (List.range (n + 1)).reverse := by
      rw [List.range_succ, List.reverse_append]
      rfl
    have hmem : ∀ j ∈ (List.range (n + 1)).reverse, j ≠ n + 1 := by
      intro j hj
      have : j < n + 1 := by
        rw [List.mem_reverse, List.mem_range] at hj
        exact hj
      omega
    have hstepsne : ∀ j, j ≠ n + 1 →
        (compensateStep reg s (n + 1)).1.steps[j]? = s.steps[j]? :=
      fun j hj => compensateStep_steps_ne reg s (n + 1) j hj
    unfold compensateDown
    dsimp only
    rw [ih ((compensateStep reg s (n + 1)).1)]
    rw [hrev]
    rw [List.filter_cons]
    have hfcongr : (List.range (n + 1)).reverse.filter
          (compensable reg (compensateStep reg s (n + 1)).1) =
        (List.range (n + 1)).reverse.filter (compensable reg s) := by
      apply List.filter_congr
      intro j hj
      exact compensable_congr reg s _ j (hstepsne j (hmem j hj))
    rw [hfcongr]
    have hmcongr : ((List.range (n + 1)).reverse.filter (compensable reg s)).map
          (compensationEnvelope (compensateStep reg s (n + 1)).1) =
        ((List.range (n + 1)).reverse.filter (compensable reg s)).map
          (compensationEnvelope s) := by
      apply List.map_congr_left
      intro j hj
      have hj' : j ∈ (List.range (n + 1)).reverse := List.mem_of_mem_filter hj
      exact compensationEnvelope_congr s _ j (hstepsne j (hmem j hj'))
        (compensateStep_sagaID reg s (n + 1))
    rw [hmcongr]
    cases hc : compensable reg s (n + 1) with
    | false =>
      rw [compensateStep_of_not_compensable reg s (n + 1) hc]
      simp
    | true =>
      obtain ⟨st, hst⟩ := compensable_some reg s (n + 1) hc
      rw [compensateStep_of_compensable reg s (n + 1) st hst hc]
      simp

/-- The compensation loop's effect on each step record: marked Failed
exactly when the index is in range and compensable (with respect to the
state at loop entry), untouched otherwise. -/
theorem compensateDown_steps (reg : Registry) : ∀ (last : Nat) (s : Saga)
    (j : Nat) (st : SagaStep), s.steps[j]? = some st →
    (compensateDown reg s last).1.steps[j]? =
      (if j ≤ last ∧ compensable reg s j = true then
        some { st with status := StepStatus.Failed } else some st) := by
  intro last
  induction last with
  | zero =>
    intro s j st hst
    show (compensateStep reg s 0).1.steps[j]? = _
    by_cases hj : j = 0
    · subst hj
      cases hc : compensable reg s 0 with
      | false =>
        rw [compensateStep_of_not_compensable reg s 0 hc]
        simp [hst]
      | true =>
        rw [compensateStep_of_compensable reg s 0 st hst hc]
        dsimp only
        have hlt : 0 < s.steps.length := by
          by_contra hge
          rw [List.getElem?_eq_none (Nat.le_of_not_lt hge)] at hst
          exact absurd hst (by simp)
        simp [List.getElem?_set_self hlt]
    · rw [compensateStep_steps_ne reg s 0 j hj, hst]
      have : ¬ (j ≤ 0 ∧ compensable reg s j = true) := by
        intro hh
        exact hj (Nat.le_zero.mp hh.1)
      rw [if_neg this]
  | succ n ih =>
    intro s j st hst
    unfold compensateDown
    dsimp only
    by_cases hj : j = n + 1
    · subst hj
      cases hc : compensable reg s (n + 1) with
      | false =>
        rw [compensateStep_of_not_compensable reg s (n + 1) hc]
        rw [ih s (n + 1) st hst]
        rw [if_neg (by omega), if_neg (by simp [hc])]
      | true =>
        rw [compensateStep_of_compensable reg s (n + 1) st hst hc]
        have hlt : n + 1 < s.steps.length := by
          by_contra hge
          rw [List.getElem?_eq_none (Nat.le_of_not_lt hge)] at hst
          exact absurd hst (by simp)
        have hstF : ({ s with steps := s.steps.set (n + 1) { st with status := StepStatus.Failed } } : Saga).steps[n+1]? = some { st with status := StepStatus.Failed } := by
          dsimp only
          exact List.getElem?_set_self hlt
        rw [ih _ (n + 1) _ hstF]
        rw [if_neg (by omega), if_pos (by simp [hc])]
    · have hne := compensateStep_steps_ne reg s (n + 1) j hj
      rw [ih _ j st (by rw [hne, hst])]
      rw [compensable_congr reg s _ j hne]
      by_cases hcond : j ≤ n ∧ compensable reg s j = true
      · rw [if_pos hcond, if_pos ⟨Nat.le_succ_of_le hcond.1, hcond.2⟩]
      · rw [if_neg hcond]
        rw [if_neg (by
          intro hh
          exact hcond ⟨by omega, hh.2⟩)]

/-- C7: compensation with starting index `last` (within bounds) visits
`last, …, 0` in strictly decreasing order; it sends the envelope
`{type:"command", command:compensate_command, params:compensate_params,
saga_id, step_id:i}` to step `i`'s target and marks step `i` Failed exactly
when step `i` is Completed, has a non-empty compensate command, and its
target is still registered (all other steps are left untouched); after the
loop the saga's status is Failed. -/
theorem sagaC7_compensation (reg : Registry) (saga : Saga) (last : Nat)
    (_hlast : last < saga.steps.length) :
    (triggerCompensation reg saga (last : Int)).1.status = SagaStatus.Failed ∧
    (triggerCompensation reg saga (last : Int)).2 =
      ((List.range (last + 1)).reverse.filter (compensable reg saga)).map
        (compensationEnvelope saga) ∧
    (∀ j st, saga.steps[j]? = some st →
      (triggerCompensation reg saga (last : Int)).1.steps[j]? =
        (if j ≤ last ∧ compensable reg saga j = true then
          some { st with status := StepStatus.Failed } else some st)) ∧
    List.Sorted (· > ·)
      (((triggerCompensation reg saga (last : Int)).2).filterMap
        (fun e => e.msg.stepID)) := by
  have hnotneg : ¬ ((last : Int) < 0) := by
    simp
  have henv : (triggerCompensation reg saga (last : Int)).2 =
      (compensateDown reg { saga with status := SagaStatus.Compensating }
        (last : Int).toNat).2 := by
    unfold triggerCompensation
    dsimp only
    rw [if_neg hnotneg]
  have hsteps : (triggerCompensation reg saga (last : Int)).1.steps =
      (compensateDown reg { saga with status := SagaStatus.Compensating }
        (last : Int).toNat).1.steps := by
    unfold triggerCompensation
    dsimp only
    rw [if_neg hnotneg]
  have htoNat : ((last : Int)).toNat = last := Int.toNat_ofNat last
  have hcomp : ∀ j, compensable reg { saga with status := SagaStatus.Compensating } j
      = compensable reg saga j := fun j => rfl
  have hcenv : ∀ j, compensationEnvelope { saga with status := SagaStatus.Compensating } j
      = compensationEnvelope saga j := fun j => rfl
  have henv' : (triggerCompensation reg saga (last : Int)).2 =
      ((List.range (last + 1)).reverse.filter (compensable reg saga)).map
        (compensationEnvelope saga) := by
    rw [henv, htoNat, compensateDown_envs]
    rw [List.filter_congr (fun j _ => hcomp j)]
    exact List.map_congr_left (fun j _ => hcenv j)
  refine ⟨triggerCompensation_status reg saga (last : Int), henv', ?_, ?_⟩
  · intro j st hst
    have hst' : ({ saga with status := SagaStatus.Compensating } : Saga).steps[j]?
        = some st := hst
    rw [hsteps, htoNat, compensateDown_steps reg last _ j st hst', hcomp j]
  · rw [henv']
    have hsome : ∀ i ∈ (List.range (last + 1)).reverse.filter (compensable reg saga),
        (compensationEnvelope saga i).msg.stepID = some i := by
      intro i hi
      obtain ⟨st, hst⟩ := compensable_some reg saga i (List.of_mem_filter hi)
      unfold compensationEnvelope
      rw [hst]
    have hid : (((List.range (last + 1)).reverse.filter (compensable reg saga)).map
          (compensationEnvelope saga)).filterMap (fun e => e.msg.stepID) =
        (List.range (last + 1)).reverse.filter (compensable reg saga) := by
      generalize hgen : (List.range (last + 1)).reverse.filter (compensable reg saga) = l
        at hsome
      clear hgen
      induction l with
      | nil => rfl
      | cons x xs ih =>
        rw [List.map_cons, List.filterMap_cons, hsome x (by simp)]
        dsimp only
        rw [ih (fun i hi => hsome i (by simp [hi]))]
    rw [hid]
    have hpair : ((List.range (last + 1)).reverse).Pairwise (· > ·) := by
      rw [List.pairwise_reverse]
      exact List.pairwise_lt_range (last + 1)
    exact List.Pairwise.sublist (List.filter_sublist _) hpair

/-- C7 witness: the theorem instantiated at the completed two-step saga
`saga_2` with starting index 1. -/
theorem sagaC7_compensation_witness :
    (triggerCompensation exReg exSagaDone (1 : Int)).1.status = SagaStatus.Failed ∧
    (triggerCompensation exReg exSagaDone (1 : Int)).2 =
      ((List.range 2).reverse.filter (compensable exReg exSagaDone)).map
        (compensationEnvelope exSagaDone) ∧
    (∀ j st, exSagaDone.steps[j]? = some st →
      (triggerCompensation exReg exSagaDone (1 : Int)).1.steps[j]? =
        (if j ≤ 1 ∧ compensable exReg exSagaDone j = true then
          some { st with status := StepStatus.Failed } else some st)) ∧
    List.Sorted (· > ·)
      (((triggerCompensation exReg exSagaDone (1 : Int)).2).filterMap
        (fun e => e.msg.stepID)) :=
  sagaC7_compensation exReg exSagaDone 1 (by decide)

/-- Releasing the acquired locks restores the lock set: erasing a
duplicate-free prefix from the front leaves exactly the original set. -/
theorem erase_reverse_append : ∀ (acq held₀ : List String), acq.Nodup →
    acq.foldl (fun h s => h.erase s) (acq.reverse ++ held₀) = held₀ := by
  intro acq
  induction acq with
  | nil => intro held₀ _; rfl
  | cons x xs ih =>
    intro held₀ hnd
    have hx : x ∉ xs := (List.nodup_cons.mp hnd).1
    have hxs : xs.Nodup := (List.nodup_cons.mp hnd).2
    rw [List.reverse_cons, List.foldl_cons]
    have hstep : (xs.reverse ++ [x] ++ held₀).erase x = xs.reverse ++ held₀ := by
      rw [List.append_assoc, List.erase_append_right _ (by simpa using hx)]
      rw [List.singleton_append, List.erase_cons_head]
    rw [hstep]
    exact ih held₀ hxs

/-- The acquisition loop succeeds on a duplicate-free, unheld target list,
acquiring every target (one acquire per action occurrence). -/
theorem tryAcquireAll_ok : ∀ (actions : List Action) (held acq locked : List String),
    (actions.map Action.sendTo).Nodup →
    (∀ a ∈ actions, a.sendTo ∉ held) →
    ∃ held', tryAcquireAll held acq locked actions =
        AcqResult.ok held' (acq ++ actions.map Action.sendTo)
          (locked ++ actions.map Action.sendTo) ∧
      (∀ x ∈ held, x ∈ held') ∧ (∀ a ∈ actions, a.sendTo ∈ held') := by
  intro actions
  induction actions with
  | nil =>
    intro held acq locked _ _
    exact ⟨held, by simp [tryAcquireAll], fun x hx => hx, by simp⟩
  | cons a rest ih =>
    intro held acq locked hnd hunheld
    have hna : a.sendTo ∉ held := hunheld a (by simp)
    have hnd' : (rest.map Action.sendTo).Nodup := (List.nodup_cons.mp (by simpa using hnd)).2
    have hhead : a.sendTo ∉ rest.map Action.sendTo :=
      (List.nodup_cons.mp (by simpa using hnd)).1
    have hrest : ∀ b ∈ rest, b.sendTo ∉ a.sendTo :: held := by
      intro b hb
      simp only [List.mem_cons]
      rintro (h | h)
      · exact hhead (h ▸ List.mem_map_of_mem Action.sendTo hb)
      · exact hunheld b (by simp [hb]) h
    obtain ⟨held', heq, hsub, hall⟩ :=
      ih (a.sendTo :: held) (acq ++ [a.sendTo]) (locked ++ [a.sendTo]) hnd' hrest
    refine ⟨held', ?_, fun x hx => hsub x (by simp [hx]), ?_⟩
    · unfold tryAcquireAll
      rw [if_neg hna, heq]
      simp
    · intro b hb
      rcases List.mem_cons.mp hb with h | h
      · rw [h]
        exact hsub a.sendTo (by simp)
      · exact hall b h

/-- The acquisition loop on an unheld but duplicated target list fails at
the repeated target and restores the lock set. -/
theorem tryAcquireAll_dup : ∀ (actions : List Action) (held₀ acq locked : List String),
    acq.Nodup →
    (∀ a ∈ actions, a.sendTo ∉ held₀) →
    ¬ ((acq ++ actions.map Action.sendTo).Nodup) →
    ∃ t, tryAcquireAll (acq.reverse ++ held₀) acq locked actions =
      AcqResult.failed t held₀ := by
  intro actions
  induction actions with
  | nil =>
    intro held₀ acq locked hnd _ hdup
    exact absurd (by simpa using hnd) hdup
  | cons a rest ih =>
    intro held₀ acq locked hnd hunheld hdup
    by_cases hmem : a.sendTo ∈ acq
    · refine ⟨a.sendTo, ?_⟩
      unfold tryAcquireAll
      rw [if_pos (by simp [hmem]), erase_reverse_append acq held₀ hnd]
    · have hna : a.sendTo ∉ acq.reverse ++ held₀ := by
        simp only [List.mem_append, List.mem_reverse]
        rintro (h | h)
        · exact hmem h
        · exact hunheld a (by simp) h
      have hrec := ih held₀ (acq ++ [a.sendTo]) (locked ++ [a.sendTo])
        (by
          rw [List.nodup_append]
          exact ⟨hnd, List.nodup_singleton _, by simpa using hmem⟩)
        (fun b hb => hunheld b (by simp [hb]))
        (by
          rw [List.map_cons, List.append_cons acq] at hdup
          exact hdup)
      obtain ⟨t, ht⟩ := hrec
      refine ⟨t, ?_⟩
      unfold tryAcquireAll
      rw [if_neg hna]
      rw [← ht]
      congr 1
      rw [List.reverse_append]
      rfl

/-- `trackActiveSimulation` touches only the tracking table. -/
theorem trackActive_foldl_sagas : ∀ (l : List String) (es : EngineState) (sid : String),
    (l.foldl (fun e t => trackActive e t sid) es).sagas = es.sagas := by
  intro l
  induction l with
  | nil => intro es sid; rfl
  | cons t rest ih => intro es sid; rw [List.foldl_cons]; exact ih _ sid

/-- `trackActiveSimulation` touches only the tracking table. -/
theorem trackActive_foldl_heldLocks : ∀ (l : List String) (es : EngineState) (sid : String),
    (l.foldl (fun e t => trackActive e t sid) es).heldLocks = es.heldLocks := by
  intro l
  induction l with
  | nil => intro es sid; rfl
  | cons t rest ih => intro es sid; rw [List.foldl_cons]; exact ih _ sid

/-- Looking up the just-inserted key. -/
theorem lookupSaga_cons_self (l : List (String × Saga)) (sid : String) (g : Saga) :
    lookupSaga ((sid, g) :: l) sid = some g := by
  unfold lookupSaga
  rw [List.find?_cons]
  simp

/-- The first materialized step of a saga created from `a₀ :: rest`. -/
theorem buildSteps_head (a₀ : Action) (rest : List Action) (now : Nat) :
    (buildSteps (a₀ :: rest) now)[0]? =
      some { stepID := 0, targetSimulation := a₀.sendTo, command := a₀.command
             compensateCommand := a₀.compensateCommand, params := a₀.params
             compensateParams := a₀.compensateParams, status := StepStatus.Pending
             createdAt := now, completedAt := none } := by
  unfold buildSteps
  rw [List.enum_cons, List.map_cons]
  simp

/-- C6 (amended): `CreateSaga` performs one non-blocking exclusion-lock
acquire per action occurrence.  (i) For a non-empty action list with
pairwise-distinct targets, none held and none conflict-tracked, and with
the first action's target registered, every target's lock is acquired and
the saga id is returned along with the single step-0 dispatch envelope.
(ii) When the same target appears in more than one action (targets
otherwise unheld and unconflicted), the second acquire on it fails: all
locks acquired so far are released — leaving the engine state exactly as
before — and a lock-acquisition error is returned instead of a saga id.
(iii) When any action's target is tracked by a Pending or InProgress saga,
the conflict map is returned as a ConflictError before any lock is
touched, and no envelope is sent. -/
theorem sagaC6_amended (reg : Registry) (es : EngineState) (actions : List Action)
    (sagaID : String) (now : Nat) :
    ((actions.map Action.sendTo).Nodup →
     (∀ a ∈ actions, a.sendTo ∉ es.heldLocks) →
     conflictList es actions = [] →
     (∀ a₀ rest, actions = a₀ :: rest → (Registry.get reg a₀.sendTo).isSome = true) →
     actions ≠ [] →
     (createSaga reg es actions sagaID now).2.2 = CreateResult.ok sagaID ∧
     (∀ a ∈ actions, a.sendTo ∈ (createSaga reg es actions sagaID now).1.heldLocks) ∧
     (lookupSaga (createSaga reg es actions sagaID now).1.sagas sagaID).isSome = true ∧
     (createSaga reg es actions sagaID now).2.1.length = 1) ∧
    (¬ (actions.map Action.sendTo).Nodup →
     (∀ a ∈ actions, a.sendTo ∉ es.heldLocks) →
     conflictList es actions = [] →
     ∃ t, createSaga reg es actions sagaID now = (es, [], CreateResult.lockFailed t)) ∧
    (actions ≠ [] → conflictList es actions ≠ [] →
     createSaga reg es actions sagaID now =
       (es, [], CreateResult.conflict (conflictList es actions))) := by
  refine ⟨?_, ?_, ?_⟩
  · rintro hnd hunheld hnoconf hreg hne
    obtain ⟨a₀, rest, hcons⟩ : ∃ a₀ rest, actions = a₀ :: rest := by
      cases actions with
      | nil => exact absurd rfl hne
      | cons a r => exact ⟨a, r, rfl⟩
    obtain ⟨held', heq, hsub, hall⟩ :=
      tryAcquireAll_ok actions es.heldLocks [] [] hnd hunheld
    obtain ⟨sim, hsim⟩ := Option.isSome_iff_exists.mp (hreg a₀ rest hcons)
    have hdisp : ∃ d, dispatchStep reg
        ⟨sagaID, 0, SagaStatus.Pending, buildSteps actions now,
          [] ++ actions.map Action.sendTo⟩ 0 = some d := by
      unfold dispatchStep
      dsimp only
      rw [hcons, buildSteps_head a₀ rest now]
      dsimp only
      rw [hsim]
      exact ⟨_, rfl⟩
    obtain ⟨d, hd⟩ := hdisp
    refine ⟨?_, ?_, ?_, ?_⟩
    · unfold createSaga
      rw [if_neg (by simp [hcons]), hnoconf]
      dsimp only
      rw [if_neg (by simp), heq]
      dsimp only
      rw [hd]
    · intro a ha
      unfold createSaga
      rw [if_neg (by simp [hcons]), hnoconf]
      dsimp only
      rw [if_neg (by simp), heq]
      dsimp only
      rw [hd]
      dsimp only
      rw [trackActive_foldl_heldLocks]
      exact hall a ha
    · unfold createSaga
      rw [if_neg (by simp [hcons]), hnoconf]
      dsimp only
      rw [if_neg (by simp), heq]
      dsimp only
      rw [hd]
      dsimp only
      rw [lookupSaga_setSaga_self, trackActive_foldl_sagas]
      dsimp only
      rw [lookupSaga_cons_self]
      rfl
    · unfold createSaga
      rw [if_neg (by simp [hcons]), hnoconf]
      dsimp only
      rw [if_neg (by simp), heq]
      dsimp only
      rw [hd]
      rfl
  · rintro hdup hunheld hnoconf
    have hne : actions ≠ [] := by
      intro h
      rw [h] at hdup
      exact hdup (by simp)
    obtain ⟨t, ht⟩ := tryAcquireAll_dup actions es.heldLocks [] []
      List.nodup_nil hunheld (by simpa using hdup)
    refine ⟨t, ?_⟩
    unfold createSaga
    rw [if_neg (by simpa using hne)]
    rw [hnoconf]
    dsimp only
    rw [show tryAcquireAll es.heldLocks [] [] actions = AcqResult.failed t es.heldLocks
      from ht]
    rw [if_neg (by simp)]
  · intro hne hconf
    unfold createSaga
    rw [if_neg (by simpa using hne)]
    rw [if_pos (by simpa using hconf)]

/-- C6 counterexample: an action list naming `vr` twice, with `vr`
registered and completely unheld, does not acquire the locks and return a
saga id — the second per-occurrence acquire fails its non-blocking TryLock
and `CreateSaga` returns a lock-acquisition error with the engine state
unchanged.  This falsifies the claim that lists repeating a target succeed
with one acquire per distinct target. -/
theorem sagaC6_counterexample :
    createSaga exReg emptyEngine [exActionVr, exActionVr] "saga_9" 0 =
      (emptyEngine, [], CreateResult.lockFailed "vr") := by
  decide

/-- C6 witness: the success case of the amended theorem at a concrete
single-action list. -/
theorem sagaC6_amended_witness :
    (createSaga exReg emptyEngine [exActionVr] "saga_7" 0).2.2 =
      CreateResult.ok "saga_7" ∧
    (∀ a ∈ [exActionVr], a.sendTo ∈
      (createSaga exReg emptyEngine [exActionVr] "saga_7" 0).1.heldLocks) ∧
    (lookupSaga (createSaga exReg emptyEngine [exActionVr] "saga_7" 0).1.sagas
      "saga_7").isSome = true ∧
    (createSaga exReg emptyEngine [exActionVr] "saga_7" 0).2.1.length = 1 :=
  (sagaC6_amended exReg emptyEngine [exActionVr] "saga_7" 0).1
    (by decide) (by decide) (by decide)
    (by
      intro a₀ rest h
      have ha : a₀ = exActionVr := ((List.cons.injEq _ _ _ _).mp h.symm).1
      rw [ha]
      decide)
    (by decide)

/-- A successful saga lookup is a membership fact. -/
theorem lookupSaga_some_mem (l : List (String × Saga)) (sid : String) (g : Saga)
    (h : lookupSaga l sid = some g) : (sid, g) ∈ l := by
  unfold lookupSaga at h
  cases hf : l.find? (fun p => p.1 == sid) with
  | none => rw [hf] at h; exact absurd h (by simp)
  | some p =>
    rw [hf] at h
    have hps : p.2 = g := by simpa using h
    have hmem := List.mem_of_find?_eq_some hf
    have hkey : p.1 = sid := by simpa using List.find?_some hf
    have : p = (sid, g) := by
      rw [← hkey, ← hps]
    exact this ▸ hmem

/-- A failed saga lookup means the key is absent. -/
theorem lookupSaga_none_not_mem (l : List (String × Saga)) (sid : String)
    (h : lookupSaga l sid = none) : sid ∉ l.map Prod.fst := by
  intro hmem
  obtain ⟨p, hp, hk⟩ := List.mem_map.mp hmem
  unfold lookupSaga at h
  rw [Option.map_eq_none'] at h
  have := List.find?_eq_none.mp h p hp
  simp [hk] at this

/-- With duplicate-free keys, membership determines the lookup. -/
theorem lookupSaga_mem (l : List (String × Saga)) (sid : String) (g : Saga)
    (hnd : (l.map Prod.fst).Nodup) (hmem : (sid, g) ∈ l) :
    lookupSaga l sid = some g := by
  induction l with
  | nil => exact absurd hmem (by simp)
  | cons p rest ih =>
    rcases List.mem_cons.mp hmem with h | h
    · rw [← h]
      exact lookupSaga_cons_self rest sid g
    · have hkey : p.1 ≠ sid := by
        intro hk
        have : sid ∈ rest.map Prod.fst := List.mem_map.mpr ⟨(sid, g), h, rfl⟩
        rw [List.map_cons] at hnd
        exact (List.nodup_cons.mp hnd).1 (hk ▸ this)
      unfold lookupSaga
      rw [List.find?_cons, show (p.1 == sid) = false from by simp [hkey]]
      exact ih (by rw [List.map_cons] at hnd; exact (List.nodup_cons.mp hnd).2) h

/-- Map assignment preserves the key list. -/
theorem setSaga_map_fst (l : List (String × Saga)) (sid : String) (g : Saga) :
    (setSaga l sid g).map Prod.fst = l.map Prod.fst := by
  unfold setSaga
  rw [List.map_map]
  apply List.map_congr_left
  intro p _
  by_cases hp : p.1 = sid
  · simp [hp]
  · simp [hp]

/-- Every entry of a map assignment is the new binding or an untouched old
one. -/
theorem setSaga_mem (l : List (String × Saga)) (sid : String) (g : Saga)
    (p : String × Saga) (h : p ∈ setSaga l sid g) :
    p = (sid, g) ∨ (p ∈ l ∧ p.1 ≠ sid) := by
  unfold setSaga at h
  obtain ⟨q, hq, hqe⟩ := List.mem_map.mp h
  by_cases hc : q.1 = sid
  · rw [if_pos hc] at hqe
    exact Or.inl hqe.symm
  · rw [if_neg hc] at hqe
    right
    rw [← hqe]
    exact ⟨hq, hc⟩

/-- Looking the assigned key up in the tracking map. -/
theorem lookupActive_setActive_self (l : List (String × List String)) (k : String)
    (ids : List String) : lookupActive (setActive l k ids) k = some ids := by
  unfold setActive
  by_cases hp : (l.find? (fun p => p.1 == k)).isSome
  · rw [if_pos hp]
    obtain ⟨q, hq⟩ := Option.isSome_iff_exists.mp hp
    clear hp
    induction l with
    | nil => exact absurd hq (by simp)
    | cons p rest ih =>
      by_cases hc : p.1 = k
      · unfold lookupActive
        rw [List.map_cons, List.find?_cons, if_pos hc]
        simp
      · have hq' : List.find? (fun p => p.1 == k) rest = some q := by
          rw [List.find?_cons, show (p.1 == k) = false from by simp [hc]] at hq
          exact hq
        have hgoal : lookupActive
            (List.map (fun p => if p.1 = k then (k, ids) else p) (p :: rest)) k
            = lookupActive (List.map (fun p => if p.1 = k then (k, ids) else p) rest) k := by
          rw [List.map_cons, if_neg hc]
          unfold lookupActive
          rw [List.find?_cons, show (p.1 == k) = false from by simp [hc]]
        rw [hgoal]
        exact ih hq'
  · rw [if_neg hp]
    unfold lookupActive
    rw [List.find?_append]
    rw [Option.not_isSome_iff_eq_none.mp hp]
    simp

/-- Looking another key up in the tracking map after an assignment. -/
theorem lookupActive_setActive_ne (l : List (String × List String)) (k k' : String)
    (ids : List String) (h : k' ≠ k) :
    lookupActive (setActive l k ids) k' = lookupActive l k' := by
  unfold setActive
  by_cases hp : (l.find? (fun p => p.1 == k)).isSome
  · rw [if_pos hp]
    clear hp
    induction l with
    | nil => rfl
    | cons p rest ih =>
      unfold lookupActive at ih ⊢
      rw [List.map_cons, List.find?_cons, List.find?_cons]
      by_cases hc : p.1 = k
      · rw [if_pos hc]
        rw [show ((k, ids).1 == k') = false from by simp [Ne.symm h]]
        rw [show (p.1 == k') = false from by
          rw [hc]; simp [Ne.symm h]]
        exact ih
      · rw [if_neg hc]
        cases hb : (p.1 == k')
        · exact ih
        · rfl
  · rw [if_neg hp]
    unfold lookupActive
    rw [List.find?_append]
    cases hf : l.find? (fun p => p.1 == k') with
    | some q => simp
    | none =>
      simp only [Option.none_or]
      rw [List.find?_cons, show ((k, ids).1 == k') = false from by simp [Ne.symm h]]
      rfl

/-- Looking another key up after a tracking-map key deletion. -/
theorem lookupActive_removeActive_ne (l : List (String × List String)) (k k' : String)
    (h : k' ≠ k) : lookupActive (removeActive l k) k' = lookupActive l k' := by
  induction l with
  | nil => rfl
  | cons p rest ih =>
    unfold removeActive lookupActive at ih ⊢
    by_cases hc : p.1 = k
    · rw [List.filter_cons_of_neg (by simp [hc])]
      rw [List.find?_cons, show (p.1 == k') = false from by rw [hc]; simp [Ne.symm h]]
      exact ih
    · rw [List.filter_cons_of_pos (by simp [hc])]
      rw [List.find?_cons, List.find?_cons]
      cases hb : (p.1 == k')
      · exact ih
      · rfl

/-- Tracking a saga preserves every existing tracking entry. -/
theorem activeIds_trackActive_mono (es : EngineState) (t sid u x : String)
    (h : x ∈ activeIds es u) : x ∈ activeIds (trackActive es t sid) u := by
  unfold trackActive activeIds
  by_cases hu : u = t
  · subst hu
    dsimp only
    rw [lookupActive_setActive_self]
    unfold activeIds at h
    simp only [Option.getD_some]
    exact List.mem_append_left _ h
  · dsimp only
    rw [lookupActive_setActive_ne _ _ _ _ hu]
    exact h

/-- Tracking a saga records it against the simulation. -/
theorem activeIds_trackActive_self (es : EngineState) (t sid : String) :
    sid ∈ activeIds (trackActive es t sid) t := by
  unfold trackActive activeIds
  dsimp only
  rw [lookupActive_setActive_self]
  simp

/-- The tracking fold preserves every existing tracking entry. -/
theorem activeIds_trackFold_mono : ∀ (L : List String) (es : EngineState)
    (sid u x : String), x ∈ activeIds es u →
    x ∈ activeIds (L.foldl (fun e t => trackActive e t sid) es) u := by
  intro L
  induction L with
  | nil => intro es sid u x h; exact h
  | cons t rest ih =>
    intro es sid u x h
    rw [List.foldl_cons]
    exact ih _ sid u x (activeIds_trackActive_mono es t sid u x h)

/-- The tracking fold records the saga against every listed simulation. -/
theorem activeIds_trackFold_self : ∀ (L : List String) (es : EngineState)
    (sid t : String), t ∈ L →
    sid ∈ activeIds (L.foldl (fun e t => trackActive e t sid) es) t := by
  intro L
  induction L with
  | nil => intro es sid t h; exact absurd h (by simp)
  | cons u rest ih =>
    intro es sid t h
    rw [List.foldl_cons]
    rcases List.mem_cons.mp h with h | h
    · subst h
      exact activeIds_trackFold_mono rest _ sid t sid
        (activeIds_trackActive_self es t sid)
    · exact ih _ sid t h

/-- Untracking one saga keeps every other saga's tracking entries. -/
theorem activeIds_untrack_mem (es : EngineState) (t sid u x : String)
    (hx : x ∈ activeIds es u) (hne : x ≠ sid) :
    x ∈ activeIds (untrackActive es t sid) u := by
  unfold untrackActive
  cases hl : lookupActive es.activeSagas t with
  | none => exact hx
  | some ids =>
    dsimp only
    by_cases hu : u = t
    · subst hu
      have hxids : x ∈ ids := by
        unfold activeIds at hx
        rw [hl] at hx
        exact hx
      have hxe : x ∈ ids.erase sid := (List.mem_erase_of_ne hne).mpr hxids
      by_cases hemp : (ids.erase sid).isEmpty
      · exact absurd hxe (by
          rw [List.isEmpty_iff.mp hemp]
          simp)
      · rw [if_neg hemp]
        unfold activeIds
        dsimp only
        rw [lookupActive_setActive_self]
        exact hxe
    · by_cases hemp : (ids.erase sid).isEmpty
      · rw [if_pos hemp]
        unfold activeIds
        dsimp only
        rw [lookupActive_removeActive_ne _ _ _ hu]
        exact hx
      · rw [if_neg hemp]
        unfold activeIds
        dsimp only
        rw [lookupActive_setActive_ne _ _ _ _ hu]
        exact hx

/-- The untracking fold keeps every other saga's tracking entries. -/
theorem activeIds_cleanup_mem : ∀ (L : List String) (es : EngineState)
    (sid u x : String), x ∈ activeIds es u → x ≠ sid →
    x ∈ activeIds (L.foldl (fun e t => untrackActive e t sid) es) u := by
  intro L
  induction L with
  | nil => intro es sid u x h _; exact h
  | cons t rest ih =>
    intro es sid u x h hne
    rw [List.foldl_cons]
    exact ih _ sid u x (activeIds_untrack_mem es t sid u x h hne) hne

/-- `dedupKeys` preserves membership. -/
theorem dedupKeys_mem : ∀ (l : List String) (x : String),
    x ∈ dedupKeys l ↔ x ∈ l := by
  intro l
  induction l with
  | nil => intro x; rfl
  | cons y ys ih =>
    intro x
    unfold dedupKeys
    by_cases hx : x = y
    · simp [hx]
    · simp only [List.mem_cons, List.mem_filter]
      constructor
      · rintro (h | ⟨h, _⟩)
        · exact Or.inl h
        · exact Or.inr ((ih x).mp h)
      · rintro (h | h)
        · exact Or.inl h
        · exact Or.inr ⟨(ih x).mpr h, by simp [hx]⟩

/-- Overwriting a step with one of the same target keeps the target map. -/
theorem map_target_set (steps : List SagaStep) (i : Nat) (stOld stNew : SagaStep)
    (hs : steps[i]? = some stOld)
    (ht : stNew.targetSimulation = stOld.targetSimulation) :
    (steps.set i stNew).map SagaStep.targetSimulation =
      steps.map SagaStep.targetSimulation := by
  apply List.ext_getElem?
  intro n
  rw [List.getElem?_map, List.getElem?_map]
  by_cases hn : n = i
  · subst hn
    have hlt : n < steps.length := by
      by_contra hge
      rw [List.getElem?_eq_none (Nat.le_of_not_lt hge)] at hs
      exact absurd hs (by simp)
    rw [List.getElem?_set_self hlt, hs]
    simp [ht]
  · rw [List.getElem?_set_ne (fun hh => hn hh.symm)]

/-- A successful dispatch keeps the target map and only upgrades a Pending
saga to InProgress. -/
theorem dispatchStep_some_fields (reg : Registry) (saga : Saga) (i : Nat)
    (d : Saga × Envelope) (h : dispatchStep reg saga i = some d) :
    d.1.steps.map SagaStep.targetSimulation =
      saga.steps.map SagaStep.targetSimulation ∧
    d.1.status = (if saga.status = SagaStatus.Pending then SagaStatus.InProgress
                  else saga.status) := by
  unfold dispatchStep at h
  cases hs : saga.steps[i]? with
  | none => rw [hs] at h; exact absurd h (by simp)
  | some step =>
    rw [hs] at h
    dsimp only at h
    cases hg : Registry.get reg step.targetSimulation with
    | none => rw [hg] at h; exact absurd h (by simp)
    | some sim =>
      rw [hg] at h
      dsimp only at h
      have hd := (Option.some.injEq _ _).mp h
      rw [← hd]
      exact ⟨map_target_set saga.steps i step _ hs rfl, rfl⟩

/-- The compensation loop body keeps the saga's locks, status and target
map. -/
theorem compensateStep_fields (reg : Registry) (s : Saga) (i : Nat) :
    (compensateStep reg s i).1.lockedSims = s.lockedSims ∧
    (compensateStep reg s i).1.status = s.status ∧
    (compensateStep reg s i).1.steps.map SagaStep.targetSimulation =
      s.steps.map SagaStep.targetSimulation := by
  cases hc : compensable reg s i with
  | false => rw [compensateStep_of_not_compensable reg s i hc]; exact ⟨rfl, rfl, rfl⟩
  | true =>
    obtain ⟨st, hst⟩ := compensable_some reg s i hc
    rw [compensateStep_of_compensable reg s i st hst hc]
    exact ⟨rfl, rfl, map_target_set s.steps i st _ hst rfl⟩

/-- The compensation loop keeps the saga's locks, id and target map. -/
theorem compensateDown_fields (reg : Registry) : ∀ (n : Nat) (s : Saga),
    (compensateDown reg s n).1.lockedSims = s.lockedSims ∧
    (compensateDown reg s n).1.sagaID = s.sagaID ∧
    (compensateDown reg s n).1.steps.map SagaStep.targetSimulation =
      s.steps.map SagaStep.targetSimulation := by
  intro n
  induction n with
  | zero =>
    intro s
    exact ⟨(compensateStep_fields reg s 0).1, compensateStep_sagaID reg s 0,
      (compensateStep_fields reg s 0).2.2⟩
  | succ n ih =>
    intro s
    unfold compensateDown
    dsimp only
    obtain ⟨h1, h2, h3⟩ := ih (compensateStep reg s (n + 1)).1
    exact ⟨h1.trans (compensateStep_fields reg s (n + 1)).1,
      h2.trans (compensateStep_sagaID reg s (n + 1)),
      h3.trans (compensateStep_fields reg s (n + 1)).2.2⟩

/-- `triggerCompensation` keeps the saga's locks, id and target map (and
ends Failed). -/
theorem triggerCompensation_fields (reg : Registry) (s : Saga) (last : Int) :
    (triggerCompensation reg s last).1.lockedSims = s.lockedSims ∧
    (triggerCompensation reg s last).1.sagaID = s.sagaID ∧
    (triggerCompensation reg s last).1.steps.map SagaStep.targetSimulation =
      s.steps.map SagaStep.targetSimulation := by
  unfold triggerCompensation
  dsimp only
  by_cases hneg : last < 0
  · rw [if_pos hneg]
    exact ⟨rfl, rfl, rfl⟩
  · rw [if_neg hneg]
    exact compensateDown_fields reg last.toNat { s with status := SagaStatus.Compensating }

/-- Pending and InProgress sagas are non-terminal. -/
theorem live_nonTerminal (g : Saga)
    (h : g.status = SagaStatus.Pending ∨ g.status = SagaStatus.InProgress) :
    g.nonTerminal := by
  unfold Saga.nonTerminal
  rcases h with h | h <;> rw [h] <;> exact ⟨by simp, by simp⟩

/-- A non-terminal, non-Compensating saga is Pending or InProgress. -/
theorem nonTerminal_live (g : Saga) (hnc : g.status ≠ SagaStatus.Compensating)
    (h : g.nonTerminal) :
    g.status = SagaStatus.Pending ∨ g.status = SagaStatus.InProgress := by
  unfold Saga.nonTerminal at h
  cases hs : g.status
  · exact Or.inl rfl
  · exact Or.inr rfl
  · exact absurd hs h.1
  · exact absurd hs h.2
  · exact absurd hs hnc

/-- A live saga tracked against a simulation makes `CheckConflict` report a
conflict there. -/
theorem checkConflict_true_of (es : EngineState) (t sid : String) (g : Saga)
    (hnd : (es.sagas.map Prod.fst).Nodup) (hmem : (sid, g) ∈ es.sagas)
    (hlive : g.status = SagaStatus.Pending ∨ g.status = SagaStatus.InProgress)
    (htr : sid ∈ activeIds es t) : (checkConflict es t).2 = true := by
  unfold checkConflict
  cases hl : lookupActive es.activeSagas t with
  | none =>
    unfold activeIds at htr
    rw [hl] at htr
    exact absurd htr (by simp)
  | some ids =>
    unfold activeIds at htr
    rw [hl] at htr
    simp only [Option.getD_some] at htr
    dsimp only
    rw [if_neg (by
      rw [List.isEmpty_iff]
      intro hh
      rw [hh] at htr
      exact absurd htr (by simp))]
    have hlook := lookupSaga_mem es.sagas sid g hnd hmem
    have hsidmem : sid ∈ ids.filter (fun sid =>
        match lookupSaga es.sagas sid with
        | some g => g.status = SagaStatus.InProgress ∨ g.status = SagaStatus.Pending
        | none => false) := by
      apply List.mem_filter.mpr
      refine ⟨htr, ?_⟩
      rw [hlook]
      exact decide_eq_true hlive.symm
    have : (ids.filter (fun sid =>
        match lookupSaga es.sagas sid with
        | some g => g.status = SagaStatus.InProgress ∨ g.status = SagaStatus.Pending
        | none => false)).isEmpty = false := by
      rw [Bool.eq_false_iff]
      intro hh
      rw [List.isEmpty_iff.mp hh] at hsidmem
      exact absurd hsidmem (by simp)
    rw [this]
    rfl

/-- A conflicting action target appears in the conflict map. -/
theorem conflictList_mem_of_true (es : EngineState) (actions : List Action)
    (a : Action) (ha : a ∈ actions)
    (hc : (checkConflict es a.sendTo).2 = true) :
    a.sendTo ∈ (conflictList es actions).map Prod.fst := by
  unfold conflictList
  have hd : a.sendTo ∈ dedupKeys (actions.map Action.sendTo) :=
    (dedupKeys_mem _ _).mpr (List.mem_map_of_mem _ ha)
  apply List.mem_map.mpr
  refine ⟨(a.sendTo, (checkConflict es a.sendTo).1), ?_, rfl⟩
  apply List.mem_filterMap.mpr
  refine ⟨a.sendTo, hd, ?_⟩
  dsimp only
  rw [if_pos hc]

/-- An empty conflict map means no action target conflicts. -/
theorem checkConflict_false_of_nil (es : EngineState) (actions : List Action)
    (a : Action) (ha : a ∈ actions) (h : conflictList es actions = []) :
    (checkConflict es a.sendTo).2 = false := by
  cases hcb : (checkConflict es a.sendTo).2 with
  | false => rfl
  | true =>
    have := conflictList_mem_of_true es actions a ha hcb
    rw [h] at this
    exact absurd this (by simp)

/-- The engine invariant only depends on the sagas map and the tracking
table. -/
theorem EngineInv.congr (es es' : EngineState) (h : EngineInv es)
    (hs : es'.sagas = es.sagas) (ha : es'.activeSagas = es.activeSagas) :
    EngineInv es' := by
  have hact : ∀ u, activeIds es' u = activeIds es u := by
    intro u
    unfold activeIds
    rw [ha]
  constructor
  · rw [hs]; exact h.keysNodup
  · rw [hs]; exact h.idMatch
  · rw [hs]; exact h.lockedEqTargets
  · rw [hs]; exact h.noCompensating
  · intro p hp hnt t ht
    rw [hact]
    exact h.tracked p (hs ▸ hp) hnt t ht
  · intro p hp q hq
    exact h.uniqueHolder p (hs ▸ hp) q (hs ▸ hq)

/-- Replacing a stored saga with a compatible successor preserves the
engine invariant. -/
theorem EngineInv.setSaga_transfer (es : EngineState) (h : EngineInv es)
    (sid : String) (gOld gNew : Saga)
    (hmem : lookupSaga es.sagas sid = some gOld)
    (hid : gNew.sagaID = sid)
    (hlocked : gNew.lockedSims = gOld.lockedSims)
    (htargets : gNew.steps.map SagaStep.targetSimulation =
      gOld.steps.map SagaStep.targetSimulation)
    (hnc : gNew.status ≠ SagaStatus.Compensating)
    (hnt : gNew.nonTerminal → gOld.nonTerminal)
    (es' : EngineState)
    (hs : es'.sagas = setSaga es.sagas sid gNew)
    (ha : ∀ u x, x ∈ activeIds es u → x ≠ sid → x ∈ activeIds es' u)
    (ha2 : gNew.nonTerminal → ∀ t ∈ gNew.lockedSims, sid ∈ activeIds es' t) :
    EngineInv es' := by
  have hmemOld : (sid, gOld) ∈ es.sagas := lookupSaga_some_mem _ _ _ hmem
  have hkey : ∀ p : String × Saga, p ∈ es.sagas → p.1 ≠ sid → p ∈ es'.sagas := by
    intro p hp hne
    rw [hs]
    unfold setSaga
    have : (if p.1 = sid then (sid, gNew) else p) = p := if_neg hne
    rw [← this]
    exact List.mem_map_of_mem _ hp
  constructor
  · rw [hs, setSaga_map_fst]
    exact h.keysNodup
  · intro p hp
    rcases setSaga_mem es.sagas sid gNew p (hs ▸ hp) with hh | ⟨hh, _⟩
    · rw [hh]; exact hid
    · exact h.idMatch p hh
  · intro p hp
    rcases setSaga_mem es.sagas sid gNew p (hs ▸ hp) with hh | ⟨hh, _⟩
    · rw [hh]
      dsimp only
      rw [hlocked, htargets]
      exact h.lockedEqTargets (sid, gOld) hmemOld
    · exact h.lockedEqTargets p hh
  · intro p hp
    rcases setSaga_mem es.sagas sid gNew p (hs ▸ hp) with hh | ⟨hh, _⟩
    · rw [hh]; exact hnc
    · exact h.noCompensating p hh
  · intro p hp hpnt t ht
    rcases setSaga_mem es.sagas sid gNew p (hs ▸ hp) with hh | ⟨hh, hne⟩
    · rw [hh] at hpnt ht ⊢
      exact ha2 hpnt t ht
    · exact ha t p.1 (h.tracked p hh hpnt t ht) hne
  · intro p hp q hq hpq hpnt hqnt t htp
    rcases setSaga_mem es.sagas sid gNew p (hs ▸ hp) with hhp | ⟨hhp, hnep⟩ <;>
      rcases setSaga_mem es.sagas sid gNew q (hs ▸ hq) with hhq | ⟨hhq, hneq⟩
    · rw [hhp, hhq] at hpq
      exact absurd rfl hpq
    · rw [hhp] at hpnt htp
      rw [hhp] at hpq
      rw [hlocked] at htp
      exact h.uniqueHolder (sid, gOld) hmemOld q hhq (by simpa using hpq)
        (hnt hpnt) hqnt t htp
    · rw [hhq] at hqnt ⊢
      dsimp only
      rw [hlocked]
      rw [hhq] at hpq
      exact h.uniqueHolder p hhp (sid, gOld) hmemOld (by simpa using hpq)
        hpnt (hnt hqnt) t htp
    · exact h.uniqueHolder p hhp q hhq hpq hpnt hqnt t htp

/-- Inserting a freshly created saga whose targets conflict with no live
saga preserves the engine invariant. -/
theorem EngineInv.insert (es : EngineState) (h : EngineInv es) (sid : String)
    (gNew : Saga)
    (hfresh : lookupSaga es.sagas sid = none)
    (hid : gNew.sagaID = sid)
    (hlt : gNew.lockedSims = gNew.steps.map SagaStep.targetSimulation)
    (hnc : gNew.status ≠ SagaStatus.Compensating)
    (es' : EngineState)
    (hs : es'.sagas = (sid, gNew) :: es.sagas)
    (ha : ∀ u x, x ∈ activeIds es u → x ∈ activeIds es' u)
    (ha2 : ∀ t ∈ gNew.lockedSims, sid ∈ activeIds es' t)
    (hnoconflict : ∀ t ∈ gNew.lockedSims, ∀ q ∈ es.sagas,
      (Prod.snd q).nonTerminal → t ∉ (Prod.snd q).lockedSims) :
    EngineInv es' := by
  have hmemcases : ∀ p : String × Saga, p ∈ es'.sagas →
      p = (sid, gNew) ∨ p ∈ es.sagas := by
    intro p hp
    rw [hs] at hp
    exact List.mem_cons.mp hp
  constructor
  · rw [hs, List.map_cons]
    exact List.nodup_cons.mpr ⟨lookupSaga_none_not_mem es.sagas sid hfresh,
      h.keysNodup⟩
  · intro p hp
    rcases hmemcases p hp with hh | hh
    · rw [hh]; exact hid
    · exact h.idMatch p hh
  · intro p hp
    rcases hmemcases p hp with hh | hh
    · rw [hh]; exact hlt
    · exact h.lockedEqTargets p hh
  · intro p hp
    rcases hmemcases p hp with hh | hh
    · rw [hh]; exact hnc
    · exact h.noCompensating p hh
  · intro p hp hpnt t ht
    rcases hmemcases p hp with hh | hh
    · rw [hh] at ht ⊢
      exact ha2 t ht
    · exact ha t p.1 (h.tracked p hh hpnt t ht)
  · intro p hp q hq hpq hpnt hqnt t htp
    rcases hmemcases p hp with hhp | hhp <;> rcases hmemcases q hq with hhq | hhq
    · rw [hhp, hhq] at hpq
      exact absurd rfl hpq
    · rw [hhp] at htp
      exact hnoconflict t htp q hhq hqnt
    · rw [hhq]
      dsimp only
      intro htq
      exact hnoconflict t htq p hhp hpnt htp
    · exact h.uniqueHolder p hhp q hhq hpq hpnt hqnt t htp

/-- The acquisition loop, when it succeeds, locks exactly one occurrence
per action. -/
theorem tryAcquireAll_ok_inv : ∀ (actions : List Action)
    (held acq locked held' acq' locked' : List String),
    tryAcquireAll held acq locked actions = AcqResult.ok held' acq' locked' →
    locked' = locked ++ actions.map Action.sendTo := by
  intro actions
  induction actions with
  | nil =>
    intro held acq locked held' acq' locked' hh
    unfold tryAcquireAll at hh
    have := (AcqResult.ok.injEq _ _ _ _ _ _).mp hh
    rw [← this.2.2]
    simp
  | cons a rest ih =>
    intro held acq locked held' acq' locked' hh
    unfold tryAcquireAll at hh
    by_cases hmem : a.sendTo ∈ held
    · rw [if_pos hmem] at hh
      exact absurd hh (by simp)
    · rw [if_neg hmem] at hh
      have := ih _ _ _ _ _ _ hh
      rw [this]
      simp

/-- The step records of a created saga target exactly the action targets. -/
theorem buildSteps_targets (actions : List Action) (now : Nat) :
    (buildSteps actions now).map SagaStep.targetSimulation =
      actions.map Action.sendTo := by
  unfold buildSteps
  rw [List.map_map]
  have : (SagaStep.targetSimulation ∘ fun p : Nat × Action =>
      ({ stepID := p.1, targetSimulation := p.2.sendTo, command := p.2.command
         compensateCommand := p.2.compensateCommand, params := p.2.params
         compensateParams := p.2.compensateParams, status := StepStatus.Pending
         createdAt := now, completedAt := none } : SagaStep)) =
      (Action.sendTo ∘ Prod.snd) := rfl
  rw [this, ← List.map_map]
  rw [show List.map Prod.snd actions.enum = actions from List.enumFrom_map_snd 0 actions]

/-- Non-terminality only depends on the status. -/
theorem nonTerminal_of_status_eq (g g' : Saga) (h : g'.status = g.status)
    (hnt : g'.nonTerminal) : g.nonTerminal := by
  unfold Saga.nonTerminal at hnt ⊢
  rw [h] at hnt
  exact hnt

/-- `HandleStepFailure` preserves the engine invariant. -/
theorem inv_stepFailure (reg : Registry) (es : EngineState) (sagaID : String)
    (stepID : Nat) (h : EngineInv es) :
    EngineInv (handleStepFailure reg es sagaID stepID).1 := by
  unfold handleStepFailure
  cases hsaga : lookupSaga es.sagas sagaID with
  | none => exact h
  | some saga =>
    dsimp only
    cases hstep : saga.steps[stepID]? with
    | none => exact h
    | some step =>
      dsimp only
      have hmemp : (sagaID, saga) ∈ es.sagas := lookupSaga_some_mem _ _ _ hsaga
      have hidsaga : saga.sagaID = sagaID := h.idMatch (sagaID, saga) hmemp
      set saga₁ : Saga :=
        { saga with
          steps := saga.steps.set stepID { step with status := StepStatus.Failed }
          status := SagaStatus.Failed } with hsaga₁
      set rC := triggerCompensation reg saga₁ ((stepID : Int) - 1) with hrC
      have hfields := triggerCompensation_fields reg saga₁ ((stepID : Int) - 1)
      have hidr : rC.1.sagaID = sagaID := by
        rw [hrC, hfields.2.1, hsaga₁]
        exact hidsaga
      apply EngineInv.setSaga_transfer es h sagaID saga rC.1 hsaga hidr
      · rw [hrC, hfields.1, hsaga₁]
      · rw [hrC, hfields.2.2, hsaga₁]
        exact map_target_set saga.steps stepID step _ hstep rfl
      · rw [hrC, triggerCompensation_status]
        simp
      · intro hnt
        exact absurd (by rw [hrC]; exact triggerCompensation_status reg saga₁ _) hnt.2
      · rw [releaseAllLocks_sagas, cleanupSimulationLocks_sagas]
      · intro u x hx hne
        have : x ∈ activeIds (cleanupSimulationLocks
            { es with sagas := setSaga es.sagas sagaID rC.1 } rC.1) u := by
          unfold cleanupSimulationLocks
          apply activeIds_cleanup_mem
          · exact hx
          · rw [hidr]
            exact hne
        exact this
      · intro hnt
        exact absurd (by rw [hrC]; exact triggerCompensation_status reg saga₁ _) hnt.2

/-- `HandleStepCompletion` preserves the engine invariant. -/
theorem inv_stepCompletion (reg : Registry) (es : EngineState) (sagaID : String)
    (stepID now : Nat) (h : EngineInv es) :
    EngineInv (handleStepCompletion reg es sagaID stepID now).1 := by
  unfold handleStepCompletion
  cases hsaga : lookupSaga es.sagas sagaID with
  | none => exact h
  | some saga =>
    dsimp only
    cases hstep : saga.steps[stepID]? with
    | none => exact h
    | some step =>
      dsimp only
      by_cases hif : step.status ≠ StepStatus.InFlight
      · rw [if_pos hif]
        exact h
      · rw [if_neg hif]
        have hmemp : (sagaID, saga) ∈ es.sagas := lookupSaga_some_mem _ _ _ hsaga
        have hidsaga : saga.sagaID = sagaID := h.idMatch (sagaID, saga) hmemp
        set step' : SagaStep :=
          { step with status := StepStatus.Completed, completedAt := some now }
          with hstep'
        have htset : (saga.steps.set stepID step').map SagaStep.targetSimulation =
            saga.steps.map SagaStep.targetSimulation :=
          map_target_set saga.steps stepID step step' hstep rfl
        by_cases hlast : stepID = saga.steps.length - 1
        · rw [if_pos hlast]
          set saga₂ : Saga :=
            { saga with
              steps := saga.steps.set stepID step'
              status := SagaStatus.Completed } with hsaga₂
          apply EngineInv.setSaga_transfer es h sagaID saga saga₂ hsaga
          · rw [hsaga₂]
            exact hidsaga
          · rw [hsaga₂]
          · rw [hsaga₂]
            exact htset
          · rw [hsaga₂]
            simp
          · intro hnt
            exact absurd (by rw [hsaga₂]) hnt.1
          · rw [releaseAllLocks_sagas, cleanupSimulationLocks_sagas]
          · intro u x hx hne
            unfold cleanupSimulationLocks
            apply activeIds_cleanup_mem
            · exact hx
            · rw [hsaga₂]
              dsimp only
              rw [hidsaga]
              exact hne
          · intro hnt
            exact absurd (by rw [hsaga₂]) hnt.1
        · rw [if_neg hlast]
          set saga₂ : Saga :=
            { saga with
              steps := saga.steps.set stepID step'
              currentStep := stepID + 1 } with hsaga₂
          have hsaga₂status : saga₂.status = saga.status := by rw [hsaga₂]
          cases hd : dispatchStep reg saga₂ (stepID + 1) with
          | some d =>
            dsimp only
            obtain ⟨hdid, _, hdlocked, _⟩ := dispatchStep_some reg saga₂ (stepID + 1) d hd
            obtain ⟨hdtargets, hdstatus⟩ := dispatchStep_some_fields reg saga₂ (stepID + 1) d hd
            apply EngineInv.setSaga_transfer es h sagaID saga d.1 hsaga
            · rw [hdid, hsaga₂]
              exact hidsaga
            · rw [hdlocked, hsaga₂]
            · rw [hdtargets, hsaga₂]
              exact htset
            · rw [hdstatus, hsaga₂status]
              by_cases hp : saga.status = SagaStatus.Pending
              · rw [if_pos hp]
                simp
              · rw [if_neg hp]
                exact h.noCompensating (sagaID, saga) hmemp
            · intro hnt
              by_cases hp : saga.status = SagaStatus.Pending
              · exact live_nonTerminal saga (Or.inl hp)
              · exact nonTerminal_of_status_eq saga d.1
                  (by rw [hdstatus, hsaga₂status, if_neg hp]) hnt
            · rfl
            · intro u x hx _
              exact hx
            · intro hnt t ht
              rw [hdlocked, hsaga₂] at ht
              have hsnt : saga.nonTerminal := by
                by_cases hp : saga.status = SagaStatus.Pending
                · exact live_nonTerminal saga (Or.inl hp)
                · exact nonTerminal_of_status_eq saga d.1
                    (by rw [hdstatus, hsaga₂status, if_neg hp]) hnt
              exact h.tracked (sagaID, saga) hmemp hsnt t ht
          | none =>
            dsimp only
            set rC := triggerCompensation reg saga₂ (stepID : Int) with hrC
            have hfields := triggerCompensation_fields reg saga₂ (stepID : Int)
            apply EngineInv.setSaga_transfer es h sagaID saga rC.1 hsaga
            · rw [hrC, hfields.2.1, hsaga₂]
              exact hidsaga
            · rw [hrC, hfields.1, hsaga₂]
            · rw [hrC, hfields.2.2, hsaga₂]
              exact htset
            · rw [hrC, triggerCompensation_status]
              simp
            · intro hnt
              exact absurd (by rw [hrC]; exact triggerCompensation_status reg saga₂ _) hnt.2
            · rfl
            · intro u x hx _
              exact hx
            · intro hnt
              exact absurd (by rw [hrC]; exact triggerCompensation_status reg saga₂ _) hnt.2

/-- The no-conflict precondition of `CreateSaga` really excludes every live
holder of each target (given the invariant). -/
theorem no_live_holder_of_nil (es : EngineState) (h : EngineInv es)
    (actions : List Action) (hnil : conflictList es actions = [])
    (t : String) (ht : t ∈ actions.map Action.sendTo) :
    ∀ q ∈ es.sagas, (Prod.snd q).nonTerminal → t ∉ (Prod.snd q).lockedSims := by
  intro q hq hqnt htq
  obtain ⟨a, ha, hat⟩ := List.mem_map.mp ht
  have hlive := nonTerminal_live q.2 (h.noCompensating q hq) hqnt
  have htr : q.1 ∈ activeIds es t := h.tracked q hq hqnt t htq
  have hfalse := checkConflict_false_of_nil es actions a ha hnil
  rw [hat] at hfalse
  have htrue := checkConflict_true_of es t q.1 q.2 h.keysNodup (by
    rw [show ((q.1, q.2) : String × Saga) = q from rfl]
    exact hq) hlive htr
  rw [hfalse] at htrue
  exact absurd htrue (by simp)

/-- `CreateSaga` preserves the engine invariant when the generated saga id
is fresh. -/
theorem inv_createSaga (reg : Registry) (es : EngineState) (actions : List Action)
    (sagaID : String) (now : Nat) (h : EngineInv es)
    (hfresh : lookupSaga es.sagas sagaID = none) :
    EngineInv (createSaga reg es actions sagaID now).1 := by
  unfold createSaga
  by_cases hemp : actions.isEmpty
  · rw [if_pos hemp]
    exact h
  · rw [if_neg hemp]
    dsimp only
    by_cases hbusy : (conflictList es actions).isEmpty
    · rw [if_neg (by simp [hbusy])]
      have hnil : conflictList es actions = [] := List.isEmpty_iff.mp hbusy
      cases hacq : tryAcquireAll es.heldLocks [] [] actions with
      | failed t held' =>
        dsimp only
        exact h.congr es { es with heldLocks := held' } rfl rfl
      | ok held acquired lockedSims =>
        dsimp only
        have hlockedeq : lockedSims = actions.map Action.sendTo := by
          have := tryAcquireAll_ok_inv actions es.heldLocks [] [] held acquired
            lockedSims hacq
          simpa using this
        set saga0 : Saga :=
          { sagaID := sagaID, currentStep := 0, status := SagaStatus.Pending
            steps := buildSteps actions now, lockedSims := lockedSims } with hsaga0
        set es₁ : EngineState :=
          { es with heldLocks := held, sagas := (sagaID, saga0) :: es.sagas }
          with hes₁
        set es₂ : EngineState :=
          lockedSims.foldl (fun e t => trackActive e t sagaID) es₁ with hes₂
        have hinv₂ : EngineInv es₂ := by
          apply EngineInv.insert es h sagaID saga0 hfresh rfl ?_ (by rw [hsaga0]; simp)
            es₂ ?_ ?_ ?_ ?_
          · rw [hsaga0]
            dsimp only
            rw [hlockedeq, buildSteps_targets]
          · rw [hes₂, trackActive_foldl_sagas, hes₁]
          · intro u x hx
            rw [hes₂]
            exact activeIds_trackFold_mono lockedSims es₁ sagaID u x hx
          · intro t ht
            rw [hes₂]
            apply activeIds_trackFold_self
            rw [hsaga0] at ht
            exact ht
          · intro t ht q hq hqnt
            rw [hsaga0] at ht
            dsimp only at ht
            rw [hlockedeq] at ht
            exact no_live_holder_of_nil es h actions hnil t ht q hq hqnt
        have hlook₂ : lookupSaga es₂.sagas sagaID = some saga0 := by
          rw [hes₂, trackActive_foldl_sagas, hes₁]
          exact lookupSaga_cons_self es.sagas sagaID saga0
        cases hd : dispatchStep reg saga0 0 with
        | some d =>
          dsimp only
          obtain ⟨hdid, _, hdlocked, _⟩ := dispatchStep_some reg saga0 0 d hd
          obtain ⟨hdtargets, hdstatus⟩ := dispatchStep_some_fields reg saga0 0 d hd
          apply EngineInv.setSaga_transfer es₂ hinv₂ sagaID saga0 d.1 hlook₂
          · rw [hdid, hsaga0]
          · exact hdlocked
          · exact hdtargets
          · rw [hdstatus, hsaga0]
            simp
          · intro _
            exact live_nonTerminal saga0 (Or.inl (by rw [hsaga0]))
          · rfl
          · intro u x hx _
            exact hx
          · intro _ t ht
            rw [hdlocked, hsaga0] at ht
            rw [hes₂]
            apply activeIds_trackFold_self
            exact ht
        | none =>
          dsimp only
          apply EngineInv.setSaga_transfer es₂ hinv₂ sagaID saga0
            { saga0 with status := SagaStatus.Failed } hlook₂
          · rw [hsaga0]
          · rfl
          · rfl
          · simp
          · intro hnt
            exact absurd rfl hnt.2
          · rw [cleanupSimulationLocks_sagas]
          · intro u x hx hne
            unfold cleanupSimulationLocks
            apply activeIds_cleanup_mem
            · exact hx
            · rw [hsaga0]
              dsimp only
              exact hne
          · intro hnt
            exact absurd rfl hnt.2
    · rw [if_pos (by simpa using hbusy)]
      exact h

/-- The fresh server state satisfies the engine invariant. -/
theorem engineInv_init : EngineInv initState.engine := by
  constructor
  · exact List.nodup_nil
  · intro p hp
    exact absurd hp (by simp [initState, emptyEngine])
  · intro p hp
    exact absurd hp (by simp [initState, emptyEngine])
  · intro p hp
    exact absurd hp (by simp [initState, emptyEngine])
  · intro p hp
    exact absurd hp (by simp [initState, emptyEngine])
  · intro p hp
    exact absurd hp (by simp [initState, emptyEngine])

/-- Every reachable server state satisfies the engine invariant. -/
theorem reachable_engineInv (st : SystemState) (h : Reachable st) :
    EngineInv st.engine := by
  unfold Reachable at h
  induction h with
  | refl => exact engineInv_init
  | tail _ hstep ih =>
    cases hstep with
    | register id name conn => exact ih
    | disconnect id => exact ih
    | create actions sagaID now fresh =>
      exact inv_createSaga _ _ actions sagaID now ih fresh
    | ackCompleted sagaID stepID now =>
      exact inv_stepCompletion _ _ sagaID stepID now ih
    | ackFailed sagaID stepID =>
      exact inv_stepFailure _ _ sagaID stepID ih

/-- C5: in every reachable state, each simulation id is held by at most one
non-terminal saga (and no stored saga is ever seen in the transient
Compensating status); `create_saga` against an id held by a Pending or
InProgress saga returns ConflictError naming that id, sends no outbound
frame, and leaves the engine unchanged; and a successful `create_saga`
implies none of its targets was held by a live saga — the id becomes
available only once its holder is terminal. -/
theorem sagaC5_exclusion (st : SystemState) (h : Reachable st) :
    (∀ p ∈ st.engine.sagas, ∀ q ∈ st.engine.sagas, p.1 ≠ q.1 →
      (Prod.snd p).nonTerminal → (Prod.snd q).nonTerminal →
      ∀ t ∈ (Prod.snd p).lockedSims, t ∉ (Prod.snd q).lockedSims) ∧
    (∀ p ∈ st.engine.sagas, (Prod.snd p).status ≠ SagaStatus.Compensating) ∧
    (∀ actions sagaID now (a : Action), a ∈ actions →
      heldByLive st.engine a.sendTo →
      createSaga st.registry st.engine actions sagaID now =
        (st.engine, [], CreateResult.conflict (conflictList st.engine actions)) ∧
      a.sendTo ∈ (conflictList st.engine actions).map Prod.fst) ∧
    (∀ actions sagaID now sid,
      (createSaga st.registry st.engine actions sagaID now).2.2 =
        CreateResult.ok sid →
      ∀ a ∈ actions, ¬ heldByLive st.engine a.sendTo) := by
  have hinv := reachable_engineInv st h
  have hconflict : ∀ (a : Action), heldByLive st.engine a.sendTo →
      (checkConflict st.engine a.sendTo).2 = true := by
    intro a hheld
    obtain ⟨p, hp, hlive, ht⟩ := hheld
    exact checkConflict_true_of st.engine a.sendTo p.1 p.2 hinv.keysNodup
      (by rw [show ((p.1, p.2) : String × Saga) = p from rfl]; exact hp) hlive
      (hinv.tracked p hp (live_nonTerminal p.2 hlive) a.sendTo ht)
  have hmain : ∀ actions sagaID now (a : Action), a ∈ actions →
      heldByLive st.engine a.sendTo →
      createSaga st.registry st.engine actions sagaID now =
        (st.engine, [], CreateResult.conflict (conflictList st.engine actions)) ∧
      a.sendTo ∈ (conflictList st.engine actions).map Prod.fst := by
    intro actions sagaID now a ha hheld
    have hct := hconflict a hheld
    have hmem := conflictList_mem_of_true st.engine actions a ha hct
    have hne : conflictList st.engine actions ≠ [] := by
      intro hh
      rw [hh] at hmem
      exact absurd hmem (by simp)
    constructor
    · unfold createSaga
      rw [if_neg (by
        rw [List.isEmpty_iff]
        exact List.ne_nil_of_mem ha)]
      dsimp only
      rw [if_pos (by
        simp only [Bool.not_eq_true']
        rw [Bool.eq_false_iff]
        intro hh
        exact hne (List.isEmpty_iff.mp hh))]
    · exact hmem
  refine ⟨hinv.uniqueHolder, hinv.noCompensating, hmain, ?_⟩
  intro actions sagaID now sid hok a ha hheld
  have := (hmain actions sagaID now a ha hheld).1
  rw [this] at hok
  exact absurd hok (by simp)

/-- C5 witness: the theorem applied to the initial (trivially reachable)
server state. -/
theorem sagaC5_exclusion_witness :
    (∀ p ∈ initState.engine.sagas, ∀ q ∈ initState.engine.sagas, p.1 ≠ q.1 →
      (Prod.snd p).nonTerminal → (Prod.snd q).nonTerminal →
      ∀ t ∈ (Prod.snd p).lockedSims, t ∉ (Prod.snd q).lockedSims) ∧
    (∀ p ∈ initState.engine.sagas, (Prod.snd p).status ≠ SagaStatus.Compensating) ∧
    (∀ actions sagaID now (a : Action), a ∈ actions →
      heldByLive initState.engine a.sendTo →
      createSaga initState.registry initState.engine actions sagaID now =
        (initState.engine, [], CreateResult.conflict (conflictList initState.engine actions)) ∧
      a.sendTo ∈ (conflictList initState.engine actions).map Prod.fst) ∧
    (∀ actions sagaID now sid,
      (createSaga initState.registry initState.engine actions sagaID now).2.2 =
        CreateResult.ok sid →
      ∀ a ∈ actions, ¬ heldByLive initState.engine a.sendTo) :=
  sagaC5_exclusion initState Relation.ReflTransGen.refl

end Orchestration
